import Mathlib

/-!
# Verification of the TeachReach data-transformation core

Shallow embedding of the field-resolution and enrichment pipeline of the
`data-transformation-teachreach` repository:

* `src/src/mappings/output_format.py` — the canonical header list, the
  source→destination field mapping, the global default table and the
  calculated-field list (pure data, transcribed verbatim).
* `src/src/utils/output_formatter.py` — `standardize_output`, embedded as
  `standardize_output` over an explicit dataframe model.
* `src/src/utils/openai_client.py` — `OpenAIClient.__init__`,
  `infer_multiple_fields` and `_get_fallback_value`; the external
  text-generation transport is abstracted as a parameter carrying the
  call's outcome.
* `src/src/transformers/teacher_data.py` — `TeacherDataTransformer`:
  `validate_input`, `validate_output`, `_transform_row`,
  `_get_default_value`, `get_output_columns` and `transform`.

Dataframes are modelled as a row count together with an ordered association
list from column name to a column of cells; a cell is `Option Value` with
`none` playing the role of a pandas null (`NaN`/`None`).  The model follows
pandas semantics for the operations the code uses: assigning a series to a
frame with an empty index adopts the series' index (row expansion),
assigning a scalar broadcasts over the current index, `fillna` with a null
fill value raises, and column selection with a missing label raises.
-/

namespace TeachReach

/-- A scalar cell payload: the Python values that flow through the pipeline
(strings, ints, bools, lists of strings, and the float `nan`). -/
inductive Value where
  | vStr (s : String)
  | vInt (n : Int)
  | vBool (b : Bool)
  | vList (l : List String)
  | vNan
deriving DecidableEq, Repr

instance {ε α : Type} [DecidableEq ε] [DecidableEq α] : DecidableEq (Except ε α) := fun a b =>
  match a, b with
  | .ok x, .ok y =>
    if h : x = y then isTrue (by rw [h]) else isFalse (by intro hh; cases hh; exact h rfl)
  | .error x, .error y =>
    if h : x = y then isTrue (by rw [h]) else isFalse (by intro hh; cases hh; exact h rfl)
  | .ok _, .error _ => isFalse (by intro hh; cases hh)
  | .error _, .ok _ => isFalse (by intro hh; cases hh)

/-- A dataframe cell: `none` is a pandas null (`NaN` / `None`). -/
abbrev Cell := Option Value

/-- One dataframe column, top row first. -/
abbrev Col := List Cell

/-- `pd.notna` on one cell. -/
def Cell.notna (c : Cell) : Bool := c.isSome

/-- `Series.notna().any()`. -/
def notnaAny (l : Col) : Bool := l.any Cell.notna

/-- `Series.isna().all()`. -/
def isnaAll (l : Col) : Bool := l.all (fun c => !c.notna)

/-- `Series.isna().any()`. -/
def isnaAny (l : Col) : Bool := l.any (fun c => !c.notna)

/-- A dataframe: a row count and an ordered list of named columns.  In a
well-formed frame every column has length `n` and the names are distinct. -/
structure Frame where
  n : Nat
  cols : List (String × Col)
deriving DecidableEq, Repr

/-- Ordered-dictionary lookup (Python `d[k]` / `d.get(k)` / `k in d`). -/
def assocFind? {α : Type} : List (String × α) → String → Option α
  | [], _ => none
  | (k, v) :: rest, c => if k = c then some v else assocFind? rest c

/-- Ordered-dictionary insert-or-update (Python `d[k] = v`, preserving
insertion order; a new key is appended at the end). -/
def dictSet {α : Type} : List (String × α) → String → α → List (String × α)
  | [], c, v => [(c, v)]
  | (k, w) :: rest, c, v =>
    if k = c then (c, v) :: rest else (k, w) :: dictSet rest c v

/-- Association-list lookup of a column by name (`df[c]` / `c in df.columns`). -/
def findCol (l : List (String × Col)) (c : String) : Option Col := assocFind? l c

/-- `c in df.columns`. -/
def Frame.hasCol (f : Frame) (c : String) : Bool := (findCol f.cols c).isSome

/-- `df[c]`, defaulting to the empty column (used only where presence is
already established). -/
def Frame.col (f : Frame) (c : String) : Col := (findCol f.cols c).getD []

/-- Replace the binding of `c` if present, else append a new column at the
end (pandas adds new columns on the right). -/
def updateOrAppend (l : List (String × Col)) (c : String) (v : Col) : List (String × Col) :=
  dictSet l c v

/-- `df[c] = series`: pandas column assignment from a series.  When the
frame's index is empty and the series is not, the frame adopts the series'
index and every other column is reindexed to all-null. -/
def Frame.setSeries (f : Frame) (c : String) (v : Col) : Frame :=
  if f.n = 0 ∧ v.length ≠ 0 then
    { n := v.length
      cols := updateOrAppend (f.cols.map fun p => (p.1, List.replicate v.length (none : Cell))) c v }
  else
    { n := f.n, cols := updateOrAppend f.cols c v }

/-- `df[c] = scalar`: broadcast over the current index (a no-op column on a
frame with an empty index). -/
def Frame.setScalar (f : Frame) (c : String) (x : Cell) : Frame :=
  { n := f.n, cols := updateOrAppend f.cols c (List.replicate f.n x) }

/-- `series.fillna(other_series)` (index-aligned; the frames at hand share
the default range index). -/
def fillnaSeries (l other : Col) : Col :=
  List.zipWith (fun a b => a.orElse fun _ => b) l other

/-- `series.fillna(scalar)`. -/
def fillnaScalar (l : Col) (x : Cell) : Col :=
  l.map fun a => a.orElse fun _ => x

/-! ## Static tables (`src/src/mappings/output_format.py`) -/

/-- `DESIRED_OUTPUT_HEADERS` (lines 7–38): the canonical output headers in
their fixed order. -/
def DESIRED_OUTPUT_HEADERS : List String :=
  [ "teacher_id", "name", "subject", "headline", "bio",
    "profile_completion_percentage", "profile_visibility",
    "preferred_teaching_modes", "willing_to_relocate", "hourly_rate",
    "monthly_salary_expectation", "available_start_date", "cv_resume_url",
    "video_intro_url", "preferred_curriculum_experience",
    "years_of_teaching_experience", "work_authorization_status",
    "current_location_country", "current_location_city",
    "background_check_status", "linkedin_profile_url",
    "preferred_grade_level", "subjects_count", "created_at", "Embeddings",
    "Nationality", "Current school", "School website", "Email", "Source ID" ]

/-- `FIELD_MAPPING` (lines 42–73): source column → canonical column, as an
ordered list of pairs (Python dict insertion order, which drives the
last-write-wins behaviour of the copy loop). -/
def FIELD_MAPPING : List (String × String) :=
  [ ("teacher_id", "teacher_id"),
    ("created_at", "created_at"),
    ("current_location_country", "current_location_country"),
    ("current_location_city", "current_location_city"),
    ("subject", "subject"),
    ("bio", "bio"),
    ("preferred_curriculum_experience", "preferred_curriculum_experience"),
    ("years_of_teaching_experience", "years_of_teaching_experience"),
    ("linkedin_profile_url", "linkedin_profile_url"),
    ("preferred_grade_level", "preferred_grade_level"),
    ("Nationality", "Nationality"),
    ("ID", "Source ID"),
    ("name", "name"),
    ("Name (b)", "name"),
    ("headline", "headline"),
    ("Headline (d)", "headline"),
    ("Linkedin URL (u)", "linkedin_profile_url"),
    ("Preferred age range (V)", "preferred_grade_level"),
    ("Email (AC)", "Email"),
    ("Source ID (AD)", "Source ID"),
    ("School (AA)", "Current school"),
    ("school website (AB)", "School website"),
    ("country (R)", "current_location_country"),
    ("city (s)", "current_location_city"),
    ("ID (a)", "teacher_id") ]

/-- `DEFAULT_VALUES` (lines 76–108): canonical column → global default;
`none` transcribes Python `None` ("must be empty"). -/
def DEFAULT_VALUES : List (String × Cell) :=
  [ ("teacher_id", some (.vStr "")),
    ("name", some (.vStr "")),
    ("subject", some (.vStr "")),
    ("headline", some (.vStr "")),
    ("bio", some (.vStr "")),
    ("profile_completion_percentage", none),
    ("profile_visibility", none),
    ("preferred_teaching_modes", none),
    ("willing_to_relocate", none),
    ("hourly_rate", none),
    ("monthly_salary_expectation", none),
    ("available_start_date", none),
    ("cv_resume_url", none),
    ("video_intro_url", none),
    ("preferred_curriculum_experience", some (.vStr "")),
    ("years_of_teaching_experience", some (.vStr "0")),
    ("work_authorization_status", none),
    ("current_location_country", some (.vStr "")),
    ("current_location_city", some (.vStr "")),
    ("background_check_status", none),
    ("linkedin_profile_url", some (.vStr "")),
    ("preferred_grade_level", some (.vStr "")),
    ("subjects_count", some (.vInt 0)),
    ("created_at", some (.vStr "")),
    ("Embeddings", some (.vStr "")),
    ("Nationality", some (.vStr "")),
    ("Current school", some (.vStr "")),
    ("School website", some (.vStr "")),
    ("Email", some (.vStr "")),
    ("Source ID", some (.vStr "")) ]

/-- `CALCULATED_FIELDS` (lines 111–120). -/
def CALCULATED_FIELDS : List String :=
  [ "preferred_teaching_modes", "available_start_date", "cv_resume_url",
    "video_intro_url", "preferred_curriculum_experience",
    "years_of_teaching_experience", "Embeddings", "Nationality" ]

/-- The columns the spec designates as always-empty: exactly the
`DEFAULT_VALUES` entries whose default is `None`. -/
def ALWAYS_EMPTY_COLUMNS : List String :=
  [ "profile_completion_percentage", "profile_visibility",
    "preferred_teaching_modes", "willing_to_relocate", "hourly_rate",
    "monthly_salary_expectation", "available_start_date", "cv_resume_url",
    "video_intro_url", "work_authorization_status",
    "background_check_status" ]

/-! ## Output Standardizer (`src/src/utils/output_formatter.py`)

`standardize_output` (lines 13–82), decomposed into its successive passes.
The working frame starts as `pd.DataFrame(columns=DESIRED_OUTPUT_HEADERS)`:
all canonical columns present, empty index. -/

/-- `pd.DataFrame(columns=DESIRED_OUTPUT_HEADERS)` (line 24). -/
def initResult : Frame :=
  { n := 0, cols := DESIRED_OUTPUT_HEADERS.map fun h => (h, ([] : Col)) }

/-- The loop body of lines 27–30 for one `(source, destination)` pair:
copy the source column when it exists and has at least one non-null
entry. -/
def mappingStep (df : Frame) (r : Frame) (sd : String × String) : Frame :=
  if df.hasCol sd.1 ∧ notnaAny (df.col sd.1) then r.setSeries sd.2 (df.col sd.1)
  else r

/-- Lines 27–30: copy each mapped source column. -/
def mappingPass (df : Frame) (r : Frame) : Frame :=
  FIELD_MAPPING.foldl (mappingStep df) r

/-- The loop body of lines 33–38 for one `(field, default)` pair.
`fillna(None)` raises in pandas (`ValueError: Must specify a fill 'value'
or 'method'.`), reached only when a `None`-default column is partially
null. -/
def defaultStep (r : Frame) (fd : String × Cell) : Except String Frame :=
  if ¬ r.hasCol fd.1 ∨ isnaAll (r.col fd.1) then
    .ok (r.setScalar fd.1 fd.2)
  else if isnaAny (r.col fd.1) then
    match fd.2 with
    | none => .error "Must specify a fill 'value' or 'method'."
    | some v => .ok (r.setSeries fd.1 (fillnaScalar (r.col fd.1) (some v)))
  else .ok r

/-- Lines 33–38: apply global defaults. -/
def defaultsPass (r : Frame) : Except String Frame :=
  DEFAULT_VALUES.foldlM defaultStep r

/-- The loop body of lines 41–43 for one calculated field. -/
def calcStep (r : Frame) (f : String) : Frame :=
  if ¬ r.hasCol f then r.setScalar f (some (.vStr "")) else r

/-- Lines 41–43: ensure calculated fields exist with empty defaults. -/
def calcPass (r : Frame) : Frame :=
  CALCULATED_FIELDS.foldl calcStep r

/-- Lines 46–51: re-derive `teacher_id` from the source frame, raising
when the source frame lacks the column. -/
def teacherIdPass (df : Frame) (r : Frame) : Except String Frame :=
  if ¬ r.hasCol "teacher_id" ∨ isnaAll (r.col "teacher_id") then
    if df.hasCol "teacher_id" then .ok (r.setSeries "teacher_id" (df.col "teacher_id"))
    else .error "teacher_id field is missing from the input DataFrame"
  else .ok r

/-- Lines 53–58: re-derive `created_at` from the source frame, else stamp
the current instant (`now`, passed in for `datetime.now().isoformat()`). -/
def createdAtPass (now : String) (df : Frame) (r : Frame) : Frame :=
  if ¬ r.hasCol "created_at" ∨ isnaAll (r.col "created_at") then
    if df.hasCol "created_at" then r.setSeries "created_at" (df.col "created_at")
    else r.setScalar "created_at" (some (.vStr now))
  else r

/-- The loop body of lines 61–68 for one canonical column. -/
def typeDefaultStep (r : Frame) (f : String) : Frame :=
  if ¬ r.hasCol f then
    if f = "subjects_count" ∨ f = "profile_completion_percentage" ∨
        f = "hourly_rate" ∨ f = "monthly_salary_expectation" then
      r.setScalar f (some (.vInt 0))
    else if f = "willing_to_relocate" then r.setScalar f (some (.vBool false))
    else r.setScalar f (some (.vStr ""))
  else r

/-- Lines 61–68: type-appropriate empty defaults for still-absent columns. -/
def typeDefaultsPass (r : Frame) : Frame :=
  DESIRED_OUTPUT_HEADERS.foldl typeDefaultStep r

/-- Lines 71–77: name fallback chain (`Name (b)` column, else
`"Unknown Teacher"`). -/
def namePass (df : Frame) (r : Frame) : Frame :=
  if r.hasCol "name" ∧ isnaAny (r.col "name") then
    if df.hasCol "Name (b)" then
      r.setSeries "name" (fillnaSeries (r.col "name") (df.col "Name (b)"))
    else
      r.setSeries "name" (fillnaScalar (r.col "name") (some (.vStr "Unknown Teacher")))
  else r

/-- Column selection for line 80: pick the named columns in order, a
`KeyError` if any label is absent. -/
def selectCols (r : Frame) : List String → Except String (List (String × Col))
  | [] => .ok []
  | h :: rest =>
    match findCol r.cols h with
    | some col => (selectCols r rest).map fun cs => (h, col) :: cs
    | none => .error ("KeyError: " ++ h)

/-- Line 80: `result = result[DESIRED_OUTPUT_HEADERS]`. -/
def reorderPass (r : Frame) : Except String Frame :=
  (selectCols r DESIRED_OUTPUT_HEADERS).map fun cols => { n := r.n, cols := cols }

/-- `standardize_output` (lines 13–82): the composition of the passes. -/
def standardize_output (now : String) (df : Frame) : Except String Frame :=
  (defaultsPass (mappingPass df initResult)).bind fun r2 =>
    (teacherIdPass df (calcPass r2)).bind fun r4 =>
      reorderPass (namePass df (typeDefaultsPass (createdAtPass now df r4)))

/-! ## Python value semantics used by the transformer -/

/-- Python truthiness of a cell payload (`bool(x)`); note `bool(nan)` is
`True`. -/
def Value.truthy : Value → Bool
  | .vStr s => !s.isEmpty
  | .vInt n => n != 0
  | .vBool b => b
  | .vList l => !l.isEmpty
  | .vNan => true

/-- `str(x)` for the payloads at hand (`str(nan) = "nan"`). -/
def Value.pyStr : Value → String
  | .vStr s => s
  | .vInt n => toString n
  | .vBool b => if b then "True" else "False"
  | .vList l =>
    let q := String.singleton (Char.ofNat 39)
    "[" ++ String.intercalate ", " (l.map fun s => q ++ s ++ q) ++ "]"
  | .vNan => "nan"

/-- `pd.isna` on a Python object (`None` and `nan` are the nulls). -/
def pyIsna : Option Value → Bool
  | none => true
  | some .vNan => true
  | some _ => false

/-- Python falsiness of an optional string credential (`not api_key`). -/
def strFalsy : Option String → Bool
  | none => true
  | some s => s.isEmpty

/-- Python `sep.join`-compatible split of a string at every occurrence of a
character (`s.split('+')`). -/
def pySplitChar (sep : Char) (s : String) : List String :=
  go s.data
where
  go : List Char → List String
    | [] => [""]
    | ch :: rest =>
      match go rest with
      | [] => [String.singleton ch]
      | h :: t =>
        if ch = sep then "" :: h :: t else (String.mk (ch :: h.data)) :: t

/-- Python whitespace for `str.strip`. -/
def isPySpace (c : Char) : Bool :=
  c = ' ' ∨ c = '\t' ∨ c = '\n' ∨ c = '\r'

/-- Python `str.strip()`. -/
def pyStrip (s : String) : String :=
  String.mk (((s.data.dropWhile isPySpace).reverse.dropWhile isPySpace).reverse)

/-- Python `str.lower()`. -/
def pyLower (s : String) : String := String.mk (s.data.map Char.toLower)

/-! ## Inference Gateway (`src/src/utils/openai_client.py`)

The external text-generation transport (request construction, HTTP call and
JSON decoding of the response — everything inside the `try` block of
`infer_multiple_fields`) is an external collaborator; its outcome is passed
in as a value of type `Except String (List (String × Value))`: an error for
a transport/parse failure, otherwise the decoded field→value dictionary. -/

/-- The state of a constructed `OpenAIClient`: the stored credential
(`self.api_key`).  An `Option` so the fallback-only state (`api_key`
falsy), which the unit tests exercise, is representable. -/
structure OpenAIClient where
  api_key : Option String
deriving DecidableEq, Repr

/-- `OpenAIClient.__init__` (lines 15–31): `api_key` is the constructor
argument, `envKey` the value of `os.environ.get("OPENAI_API_KEY")`. -/
def OpenAIClient.init (api_key envKey : Option String) : Except String OpenAIClient :=
  if strFalsy api_key then
    if strFalsy envKey then
      .error "No OpenAI API key provided and OPENAI_API_KEY not found in environment. Please provide an API key."
    else .ok { api_key := envKey }
  else .ok { api_key := api_key }

/-- `OpenAIClient._get_fallback_value` (lines 336–353). -/
def OpenAIClient.getFallbackValue (field_name : String) : Value :=
  if field_name = "Years of experience (P)" then .vInt 5
  else if field_name = "Subject (Array) (c)" then .vList ["General Education"]
  else if field_name = "Preferred curriculumn (O)" then .vStr "British"
  else if field_name = "Nationality (Z)" then .vStr "International"
  else .vStr "Unknown"

/-- `OpenAIClient.infer_multiple_fields` (lines 71–115).  `call` is the
outcome of the external request for this invocation (unused when no
credential is stored); `teacher_data` is forwarded to the transport only. -/
def OpenAIClient.infer_multiple_fields (c : OpenAIClient)
    (call : List String → List (String × Value) → Except String (List (String × Value)))
    (field_names : List String) (teacher_data : List (String × Value)) :
    List (String × Value) :=
  if strFalsy c.api_key then
    field_names.map fun f => (f, OpenAIClient.getFallbackValue f)
  else
    match call field_names teacher_data with
    | .error _ => field_names.map fun f => (f, OpenAIClient.getFallbackValue f)
    | .ok result_dict =>
      field_names.foldl
        (fun acc f =>
          if (assocFind? acc f).isSome then acc
          else dictSet acc f (OpenAIClient.getFallbackValue f))
        result_dict

/-! ## Row Assembler (`src/src/transformers/teacher_data.py`)

A row (one `pandas.Series` from `DataFrame.iterrows`) is a dictionary from
column name to `Value`; a null cell appears as `vNan`, a missing key (the
column absent from the frame) as a failed lookup, matching
`Series.get`'s `None`. -/

/-- `self.required_output_columns` (lines 28–32). -/
def REQUIRED_OUTPUT_COLUMNS : List String :=
  [ "teacher_id", "name", "subject", "headline",
    "current_location_country", "current_location_city",
    "bio", "preferred_curriculum_experience",
    "years_of_teaching_experience", "linkedin_profile_url" ]

/-- `TeacherDataTransformer._get_default_value` (lines 118–141); `fresh` is
the `uuid.uuid4()` drawn for the `teacher_id` default. -/
def getDefaultValue (fresh : String) (column_name : String) : Option Value :=
  if column_name = "teacher_id" then some (.vStr fresh)
  else if column_name = "name" then some (.vStr "Unknown Teacher")
  else if column_name = "subject" then some (.vStr "General Education")
  else if column_name = "headline" then some (.vStr "Teacher")
  else if column_name = "current_location_country" then some (.vStr "Unknown")
  else if column_name = "current_location_city" then some (.vStr "Unknown")
  else if column_name = "bio" then some (.vStr "No biography provided")
  else if column_name = "preferred_curriculum_experience" then some (.vStr "Not specified")
  else if column_name = "years_of_teaching_experience" then some (.vStr "0")
  else if column_name = "linkedin_profile_url" then some (.vStr "Not provided")
  else none

/-- `bool(row.get(part))` — a missing key gives `None` (falsy); a null cell
gives `nan` (truthy). -/
def rowTruthy (row : List (String × Value)) (part : String) : Bool :=
  match assocFind? row part with
  | some v => v.truthy
  | none => false

/-- `str(row.get(part, ''))`. -/
def rowStr (row : List (String × Value)) (part : String) : String :=
  match assocFind? row part with
  | some v => v.pyStr
  | none => ""

/-- Lines 88–91: combination handling of one mapping entry that contains
`+`: split on `+`, strip each part, keep the parts whose looked-up value is
truthy, join their string forms with single spaces; an empty join is stored
as `None`. -/
def combineParts (row : List (String × Value)) (input_field : String) : Option Value :=
  let input_parts := (pySplitChar '+' input_field).map pyStrip
  let combined_value :=
    String.intercalate " " ((input_parts.filter (rowTruthy row)).map (rowStr row))
  if combined_value ≠ "" then some (.vStr combined_value) else none

/-- The body of the mapping loop of `_transform_row` (lines 84–94) for one
`(input_field, output_field)` entry: a direct copy when the input field is
present in the row, else the combination case, else the `AI` sentinel
(queueing the output field for inference), else a silent skip. -/
def resolveStep (row : List (String × Value))
    (acc : List (String × Option Value) × List String) (entry : String × String) :
    List (String × Option Value) × List String :=
  match assocFind? row entry.1 with
  | some v => (dictSet acc.1 entry.2 (some v), acc.2)
  | none =>
    if entry.1.data.contains '+' then
      (dictSet acc.1 entry.2 (combineParts row entry.1), acc.2)
    else if pyLower entry.1 = "ai" then
      (acc.1, acc.2 ++ [entry.2])
    else acc

/-- Lines 108–111: the required-column defaulting condition
(`col not in transformed or pd.isna(transformed[col]) or transformed[col] == ''`). -/
def needsDefault (t : List (String × Option Value)) (col : String) : Bool :=
  match assocFind? t col with
  | none => true
  | some v => pyIsna v || v = some (.vStr "")

/-- Lines 108–111: the required-column defaulting pass; `fresh` is the
`uuid.uuid4()` available to the `teacher_id` default. -/
def requiredDefaultsPass (fresh : String) (t : List (String × Option Value)) :
    List (String × Option Value) :=
  REQUIRED_OUTPUT_COLUMNS.foldl
    (fun t col => if needsDefault t col then dictSet t col (getDefaultValue fresh col) else t)
    t

/-- `TeacherDataTransformer._transform_row` (lines 65–116).  `uuid1` is the
identifier generated at entry, `uuid2` the one available to the defaulting
pass, `now` the `datetime.now().isoformat()` stamp, `inferFn` the client's
`infer_multiple_fields` partially applied to its transport. -/
def transformRow (mapping : List (String × String))
    (inferFn : List String → List (String × Value) → List (String × Value))
    (uuid1 uuid2 now : String) (row : List (String × Value)) :
    List (String × Option Value) :=
  let t0 : List (String × Option Value) := [("teacher_id", some (.vStr uuid1))]
  let resolved := mapping.foldl (resolveStep row) (t0, [])
  let t1 :=
    if resolved.2 ≠ [] then
      (inferFn resolved.2 row).foldl (fun t fv => dictSet t fv.1 (some fv.2)) resolved.1
    else resolved.1
  dictSet (requiredDefaultsPass uuid2 t1) "created_at" (some (.vStr now))

/-! ## `TeacherDataTransformer.transform` (lines 37–63) -/

/-- The argument of `transform`: either a dataframe or some non-dataframe
Python object. -/
inductive PyInput where
  | df (f : Frame)
  | nonDf
deriving Repr

/-- `TeacherDataTransformer.validate_input` (lines 162–180): the argument
must be a `DataFrame` with at least one row. -/
def validate_input : PyInput → Bool
  | .df f => f.n != 0
  | .nonDf => false

/-- First-occurrence deduplication.  `get_output_columns` materialises a
Python `set`, whose iteration order is implementation-defined; the
embedding fixes first-insertion order (no claim depends on the order). -/
def dedupFirst (l : List String) : List String :=
  l.foldl (fun acc s => if s ∈ acc then acc else acc ++ [s]) []

/-- `TeacherDataTransformer.get_output_columns` (lines 143–160): mapping
destinations plus required columns plus `created_at`. -/
def get_output_columns (mapping : List (String × String)) : List String :=
  dedupFirst (mapping.map Prod.snd ++ REQUIRED_OUTPUT_COLUMNS ++ ["created_at"])

/-- `TeacherDataTransformer.validate_output` (lines 182–205): a dataframe
with at least one row carrying every required column. -/
def validate_output (f : Frame) : Bool :=
  f.n != 0 && REQUIRED_OUTPUT_COLUMNS.all f.hasCol

/-- Row `i` of a frame as the `pandas.Series` dictionary seen by
`_transform_row`: every column is a key; null cells surface as `nan`. -/
def Frame.row (f : Frame) (i : Nat) : List (String × Value) :=
  f.cols.map fun p =>
    (p.1, match p.2.get? i with
          | some (some v) => v
          | _ => Value.vNan)

/-- The `pd.concat` accumulation of lines 52–57: an output frame over
`cols`, extended on the right by any extra keys the row dictionaries
introduce; a key absent from a row (or present with `None`) yields a null
cell. -/
def concatRows (cols : List String) (rows : List (List (String × Option Value))) : Frame :=
  let allCols := rows.foldl
    (fun acc row => acc ++ (row.map Prod.fst).filter (fun k => !acc.contains k)) cols
  { n := rows.length
    cols := allCols.map fun c =>
      (c, rows.map fun row => ((assocFind? row c).getD none : Cell)) }

/-- `TeacherDataTransformer.transform` (lines 37–63).  `ids i` supplies the
two `uuid.uuid4()` draws available while row `i` is assembled. -/
def transform (mapping : List (String × String))
    (inferFn : List String → List (String × Value) → List (String × Value))
    (ids : Nat → String × String) (now : String) (data : PyInput) :
    Except String Frame :=
  if ¬ validate_input data then .error "Invalid input data"
  else
    match data with
    | .nonDf => .error "Invalid input data"
    | .df f =>
      let rows := (List.range f.n).map fun i =>
        transformRow mapping inferFn (ids i).1 (ids i).2 now (f.row i)
      let output_data := concatRows (get_output_columns mapping) rows
      if ¬ validate_output output_data then .error "Invalid output data"
      else .ok output_data

/-! ## Concrete frames used by the closed theorems -/

/-- A one-row batch carrying a `name` and a legacy `ID` source column. -/
def dfSourceId : Frame := ⟨1, [("name", [some (.vStr "A")]), ("ID", [some (.vStr "x")])]⟩

/-- A one-row batch whose `teacher_id` column is entirely null while
another mapped column is populated. -/
def dfNullTid : Frame := ⟨1, [("teacher_id", [none]), ("name", [some (.vStr "A")])]⟩

/-- A one-row batch with no `teacher_id` column at all but a populated
mapped column. -/
def dfNoTid : Frame := ⟨1, [("name", [some (.vStr "A")])]⟩

/-- A one-row batch carrying a non-null `teacher_id`. -/
def dfTid : Frame := ⟨1, [("teacher_id", [some (.vStr "id-1")])]⟩

/-- Running the standardizer a second time on a first result. -/
def restandardize (now : String) (e : Except String Frame) : Except String Frame :=
  e.bind (standardize_output now)

/-- The frame produced by standardizing `dfSourceId`. -/
def outSourceId : Frame :=
  match standardize_output "T" dfSourceId with
  | .ok f => f
  | .error _ => ⟨0, []⟩

/-- The keys of a frame, in column order. -/
def keysOf (r : Frame) : List String := r.cols.map Prod.fst

/-- The always-empty invariant: every cell of every designated
always-empty column is null. -/
def AEInv (r : Frame) : Prop :=
  ∀ c ∈ ALWAYS_EMPTY_COLUMNS, ∀ cell ∈ r.col c, cell = (none : Cell)

/-- The canonical columns that are also `FIELD_MAPPING` sources (so a
standardized batch feeds them straight back into themselves). -/
def SELF_MAPPED_COLUMNS : List String :=
  [ "teacher_id", "created_at", "current_location_country",
    "current_location_city", "subject", "bio",
    "preferred_curriculum_experience", "years_of_teaching_experience",
    "linkedin_profile_url", "preferred_grade_level", "Nationality",
    "name", "headline" ]

/-- The canonical string-default columns that are *not* their own mapping
source: a second standardization resets them to `""`. -/
def RESET_COLUMNS : List String :=
  [ "Embeddings", "Current school", "School website", "Email", "Source ID" ]

/-- The source column whose copy is the last to land in destination `c`
during the mapping loop (later entries win), if any entry fires at all. -/
def lastFire (df : Frame) (c : String) : List (String × String) → Option String
  | [] => none
  | sd :: rest =>
    match lastFire df c rest with
    | some s => some s
    | none =>
      if sd.2 = c ∧ df.hasCol sd.1 = true ∧ notnaAny (df.col sd.1) = true then some sd.1
      else none

/-- The frame produced by standardizing `dfNoTid` (a batch whose every
non-self-mapped column ends up holding its declared default). -/
def outNoTid : Frame :=
  match standardize_output "T" dfNoTid with
  | .ok f => f
  | .error _ => ⟨0, []⟩

/-- The working invariant of the standardizer's result frame: the column
set is exactly the canonical headers (in order) and the always-empty
columns hold only nulls. -/
def PFrame (r : Frame) : Prop :=
  keysOf r = DESIRED_OUTPUT_HEADERS ∧ AEInv r

/-! ## Dictionary lemmas -/

theorem assocFind_dictSet_self {α : Type} (l : List (String × α)) (k : String) (v : α) :
    assocFind? (dictSet l k v) k = some v := by
  induction l with
  | nil => simp [dictSet, assocFind?]
  | cons p rest ih =>
    by_cases h : p.1 = k
    · simp [dictSet, assocFind?, h]
    · simpa [dictSet, assocFind?, h] using ih

theorem assocFind_dictSet_ne {α : Type} (l : List (String × α)) (k k' : String) (v : α)
    (h : k' ≠ k) : assocFind? (dictSet l k v) k' = assocFind? l k' := by
  induction l with
  | nil => simp [dictSet, assocFind?, Ne.symm h]
  | cons p rest ih =>
    obtain ⟨a, b⟩ := p
    by_cases hp : a = k
    · subst hp
      simp [dictSet, assocFind?, Ne.symm h]
    · simp only [dictSet, if_neg hp, assocFind?, ih]

/-! ## Frame lemmas -/

theorem assocFind_isSome_iff_mem_keys {α : Type} (l : List (String × α)) (k : String) :
    (assocFind? l k).isSome = true ↔ k ∈ l.map Prod.fst := by
  induction l with
  | nil => simp [assocFind?]
  | cons p rest ih =>
    obtain ⟨a, b⟩ := p
    by_cases h : a = k
    · subst h
      simp [assocFind?]
    · simp [assocFind?, h, ih, Ne.symm h]

theorem assocFind_map_const {α β : Type} (l : List (String × α)) (c0 : β) (k : String) :
    assocFind? (l.map fun p => (p.1, c0)) k = (assocFind? l k).map fun _ => c0 := by
  induction l with
  | nil => simp [assocFind?]
  | cons p rest ih =>
    by_cases h : p.1 = k
    · simp [assocFind?, h]
    · simp [assocFind?, h, ih]

theorem assocFind_map_self {α : Type} (g : String → α) (l : List String) (k : String)
    (h : k ∈ l) : assocFind? (l.map fun c => (c, g c)) k = some (g k) := by
  induction l with
  | nil => cases h
  | cons a rest ih =>
    by_cases ha : a = k
    · subst ha
      simp [assocFind?]
    · rcases List.mem_cons.mp h with rfl | hr
      · exact absurd rfl ha
      · simp [assocFind?, ha, ih hr]

theorem keys_dictSet_mem {α : Type} (l : List (String × α)) (k : String) (v : α)
    (h : k ∈ l.map Prod.fst) : (dictSet l k v).map Prod.fst = l.map Prod.fst := by
  induction l with
  | nil => simp at h
  | cons p rest ih =>
    obtain ⟨a, b⟩ := p
    by_cases ha : a = k
    · subst ha
      simp [dictSet]
    · have hr : k ∈ rest.map Prod.fst := by
        rcases List.mem_cons.mp h with hk | hk
        · exact absurd hk.symm ha
        · exact hk
      simp [dictSet, ha, ih hr]

theorem hasCol_iff_mem_keys (r : Frame) (c : String) :
    r.hasCol c = true ↔ c ∈ keysOf r :=
  assocFind_isSome_iff_mem_keys r.cols c

theorem Frame.col_eq (r : Frame) (c : String) : r.col c = (assocFind? r.cols c).getD [] := rfl

theorem col_setSeries_self (r : Frame) (c : String) (v : Col) :
    (r.setSeries c v).col c = v := by
  unfold Frame.setSeries
  split <;> simp [Frame.col, findCol, assocFind_dictSet_self, updateOrAppend]

theorem n_setSeries_of_ne (r : Frame) (c : String) (v : Col) (h : r.n ≠ 0) :
    (r.setSeries c v).n = r.n := by
  unfold Frame.setSeries
  rw [if_neg (by simp [h])]

theorem col_setSeries_ne_of_n (r : Frame) (c c' : String) (v : Col) (h : r.n ≠ 0)
    (hne : c' ≠ c) : (r.setSeries c v).col c' = r.col c' := by
  unfold Frame.setSeries
  rw [if_neg (by simp [h])]
  simp [Frame.col, findCol, updateOrAppend, assocFind_dictSet_ne _ _ _ _ hne]

theorem col_setSeries_expand (r : Frame) (c c' : String) (v : Col) (h : r.n = 0)
    (hv : v.length ≠ 0) (hne : c' ≠ c) :
    (r.setSeries c v).col c' =
      if c' ∈ keysOf r then List.replicate v.length (none : Cell) else [] := by
  unfold Frame.setSeries
  rw [if_pos ⟨h, hv⟩]
  simp only [Frame.col, findCol, updateOrAppend, assocFind_dictSet_ne _ _ _ _ hne]
  rw [show (r.cols.map fun p => (p.1, List.replicate v.length (none : Cell)))
      = r.cols.map fun p => (p.1, List.replicate v.length (none : Cell)) from rfl,
    assocFind_map_const]
  by_cases hc : c' ∈ keysOf r
  · obtain ⟨w, hw⟩ := Option.isSome_iff_exists.mp ((assocFind_isSome_iff_mem_keys r.cols c').mpr hc)
    simp [hw, hc]
  · have := (assocFind_isSome_iff_mem_keys r.cols c').not
    rw [Option.not_isSome_iff_eq_none] at this
    simp [this.mpr hc, hc]

theorem keys_setSeries (r : Frame) (c : String) (v : Col) (h : c ∈ keysOf r) :
    keysOf (r.setSeries c v) = keysOf r := by
  unfold Frame.setSeries
  split
  · simp only [keysOf, updateOrAppend]
    rw [keys_dictSet_mem _ _ _ (by simpa [keysOf] using h)]
    simp [keysOf]
  · simpa only [keysOf, updateOrAppend] using keys_dictSet_mem _ _ _ h

theorem n_setScalar (r : Frame) (c : String) (x : Cell) : (r.setScalar c x).n = r.n := rfl

theorem col_setScalar_self (r : Frame) (c : String) (x : Cell) :
    (r.setScalar c x).col c = List.replicate r.n x := by
  simp [Frame.setScalar, Frame.col, findCol, updateOrAppend, assocFind_dictSet_self]

theorem col_setScalar_ne (r : Frame) (c c' : String) (x : Cell) (hne : c' ≠ c) :
    (r.setScalar c x).col c' = r.col c' := by
  simp [Frame.setScalar, Frame.col, findCol, updateOrAppend,
    assocFind_dictSet_ne _ _ _ _ hne]

theorem keys_setScalar (r : Frame) (c : String) (x : Cell) (h : c ∈ keysOf r) :
    keysOf (r.setScalar c x) = keysOf r :=
  keys_dictSet_mem _ _ _ h

/-! ## Fold invariants -/

theorem foldl_invariant {α σ : Type} (P : α → Prop) (step : α → σ → α) (l : List σ)
    (h : ∀ x ∈ l, ∀ a, P a → P (step a x)) :
    ∀ a, P a → P (l.foldl step a) := by
  induction l with
  | nil => exact fun a ha => ha
  | cons x rest ih =>
    intro a ha
    exact ih (fun y hy => h y (List.mem_cons_of_mem _ hy)) _
      (h x (List.mem_cons_self x rest) a ha)

theorem foldl_noop {α σ : Type} (step : α → σ → α) (l : List σ) (a : α)
    (h : ∀ x ∈ l, step a x = a) : l.foldl step a = a := by
  induction l with
  | nil => rfl
  | cons x rest ih =>
    rw [List.foldl_cons, h x (List.mem_cons_self x rest)]
    exact ih fun y hy => h y (List.mem_cons_of_mem _ hy)

theorem foldlM_invariant {σ : Type} (P : Frame → Prop)
    (step : Frame → σ → Except String Frame) (l : List σ)
    (h : ∀ x ∈ l, ∀ r r', P r → step r x = .ok r' → P r') :
    ∀ r r', P r → l.foldlM step r = .ok r' → P r' := by
  induction l with
  | nil =>
    intro r r' hr hfold
    cases hfold
    exact hr
  | cons x rest ih =>
    intro r r' hr hfold
    rw [List.foldlM_cons] at hfold
    cases hx : step r x with
    | error e => rw [hx] at hfold; cases hfold
    | ok r1 =>
      rw [hx] at hfold
      exact ih (fun y hy => h y (List.mem_cons_of_mem _ hy)) r1 r'
        (h x (List.mem_cons_self x rest) r r1 hr hx) hfold

/-! ## `selectCols` and the do-chain of `standardize_output` -/

theorem selectCols_ok (r : Frame) (l : List String)
    (cols : List (String × Col)) (h : selectCols r l = .ok cols) :
    cols = l.map fun h => (h, r.col h) := by
  induction l generalizing cols with
  | nil => cases h; rfl
  | cons a rest ih =>
    unfold selectCols at h
    cases hf : findCol r.cols a with
    | none => rw [hf] at h; cases h
    | some col =>
      rw [hf] at h
      cases hrest : selectCols r rest with
      | error e => rw [hrest] at h; cases h
      | ok cs =>
        rw [hrest] at h
        cases h
        rw [ih cs hrest]
        simp [Frame.col, hf]

theorem selectCols_isOk (r : Frame) (l : List String)
    (h : ∀ c ∈ l, r.hasCol c = true) :
    selectCols r l = .ok (l.map fun h => (h, r.col h)) := by
  induction l with
  | nil => rfl
  | cons a rest ih =>
    unfold selectCols
    obtain ⟨col, hcol⟩ := Option.isSome_iff_exists.mp (h a (List.mem_cons_self a rest))
    rw [hcol, ih fun c hc => h c (List.mem_cons_of_mem _ hc)]
    simp [Except.map, Frame.col, hcol]

theorem exbind_ok {ε α β : Type} (a : α) (f : α → Except ε β) :
    (Except.ok a : Except ε α).bind f = f a := rfl

theorem exbind_error {ε α β : Type} (e : ε) (f : α → Except ε β) :
    (Except.error e : Except ε α).bind f = .error e := rfl

theorem standardize_decompose (now : String) (df out : Frame) :
    standardize_output now df = .ok out ↔
      ∃ r2 r4, defaultsPass (mappingPass df initResult) = .ok r2 ∧
        teacherIdPass df (calcPass r2) = .ok r4 ∧
        reorderPass (namePass df (typeDefaultsPass (createdAtPass now df r4))) = .ok out := by
  constructor
  · intro h
    unfold standardize_output at h
    cases h2 : defaultsPass (mappingPass df initResult) with
    | error e => rw [h2, exbind_error] at h; cases h
    | ok r2 =>
      rw [h2, exbind_ok] at h
      cases h4 : teacherIdPass df (calcPass r2) with
      | error e => rw [h4, exbind_error] at h; cases h
      | ok r4 =>
        rw [h4, exbind_ok] at h
        exact ⟨r2, r4, rfl, h4, h⟩
  · rintro ⟨r2, r4, h2, h4, hout⟩
    unfold standardize_output
    rw [h2, exbind_ok, h4, exbind_ok]
    exact hout

/-! ## C1: missing credential -/

/-- **C1** (code_bug): with no constructor argument and no
`OPENAI_API_KEY` in the environment, `OpenAIClient.__init__` raises a
`ValueError` — the run aborts instead of degrading to fallback-only mode.
(The repository's own tests `test_initialization` and
`test_infer_multiple_fields_no_api_key` construct `OpenAIClient()` without
a key and expect fallback behaviour, so the constructor contradicts them.) -/
theorem C1_missing_credential_raises :
    OpenAIClient.init none none =
      .error "No OpenAI API key provided and OPENAI_API_KEY not found in environment. Please provide an API key." ∧
    OpenAIClient.init (some "") none =
      .error "No OpenAI API key provided and OPENAI_API_KEY not found in environment. Please provide an API key." := by
  constructor <;> rfl

/-! ## C7: fallback coverage of `infer_multiple_fields` -/

theorem backfill_preserves {fallback : String → Value} (fields : List String)
    (acc : List (String × Value)) (f : String) (h : (assocFind? acc f).isSome) :
    assocFind?
      (fields.foldl
        (fun acc g => if (assocFind? acc g).isSome then acc else dictSet acc g (fallback g)) acc) f
      = assocFind? acc f := by
  induction fields generalizing acc with
  | nil => rfl
  | cons g rest ih =>
    simp only [List.foldl_cons]
    by_cases hg : (assocFind? acc g).isSome
    · rw [if_pos hg]
      exact ih acc h
    · rw [if_neg hg]
      have hne : f ≠ g := by
        intro hfg
        exact hg (hfg ▸ h)
      rw [ih (dictSet acc g (fallback g)) (by rwa [assocFind_dictSet_ne _ _ _ _ hne]),
        assocFind_dictSet_ne _ _ _ _ hne]

theorem backfill_covers {fallback : String → Value} (fields : List String)
    (acc : List (String × Value)) (f : String) (h : f ∈ fields) :
    assocFind?
      (fields.foldl
        (fun acc g => if (assocFind? acc g).isSome then acc else dictSet acc g (fallback g)) acc) f
      = match assocFind? acc f with
        | some v => some v
        | none => some (fallback f) := by
  induction fields generalizing acc with
  | nil => cases h
  | cons g rest ih =>
    simp only [List.foldl_cons]
    by_cases hg : (assocFind? acc g).isSome
    · rw [if_pos hg]
      rcases List.mem_cons.mp h with hf | hf
      · subst hf
        obtain ⟨v, hv⟩ := Option.isSome_iff_exists.mp hg
        rw [backfill_preserves rest acc f hg, hv]
      · exact ih acc hf
    · rw [if_neg hg]
      rcases List.mem_cons.mp h with hf | hf
      · subst hf
        obtain hnone := Option.not_isSome_iff_eq_none.mp hg
        rw [backfill_preserves rest _ f (by rw [assocFind_dictSet_self]; rfl),
          assocFind_dictSet_self, hnone]
      · rw [ih _ hf]
        by_cases hfg : f = g
        · subst hfg
          rw [assocFind_dictSet_self, Option.not_isSome_iff_eq_none.mp hg]
        · rw [assocFind_dictSet_ne _ _ _ _ hfg]

/-- **C7** (confirmed): with no configured credential or a failed call,
every requested field resolves from the static fallback table (with the
fixed defaults experience→5, subject→["General Education"],
curriculum→"British", nationality→"International"); on a successful call,
any requested field absent from the response is individually backfilled
from the same table, so the returned dictionary covers every requested
field. -/
theorem C7_fallback_coverage (c : OpenAIClient)
    (call : List String → List (String × Value) → Except String (List (String × Value)))
    (fields : List String) (td : List (String × Value)) :
    OpenAIClient.getFallbackValue "Years of experience (P)" = .vInt 5 ∧
    OpenAIClient.getFallbackValue "Subject (Array) (c)" = .vList ["General Education"] ∧
    OpenAIClient.getFallbackValue "Preferred curriculumn (O)" = .vStr "British" ∧
    OpenAIClient.getFallbackValue "Nationality (Z)" = .vStr "International" ∧
    (strFalsy c.api_key = true →
      c.infer_multiple_fields call fields td =
        fields.map fun f => (f, OpenAIClient.getFallbackValue f)) ∧
    (∀ e, call fields td = .error e → strFalsy c.api_key = false →
      c.infer_multiple_fields call fields td =
        fields.map fun f => (f, OpenAIClient.getFallbackValue f)) ∧
    (∀ d, call fields td = .ok d → strFalsy c.api_key = false →
      ∀ f ∈ fields,
        assocFind? (c.infer_multiple_fields call fields td) f =
          match assocFind? d f with
          | some v => some v
          | none => some (OpenAIClient.getFallbackValue f)) := by
  refine ⟨rfl, rfl, rfl, rfl, ?_, ?_, ?_⟩
  · intro h
    simp [OpenAIClient.infer_multiple_fields, h]
  · intro e he h
    simp [OpenAIClient.infer_multiple_fields, h, he]
  · intro d hd h f hf
    unfold OpenAIClient.infer_multiple_fields
    rw [if_neg (by simp [h]), hd]
    exact backfill_covers fields d f hf

/-- Witness for C7 at a concrete client, call outcome and field list. -/
theorem C7_fallback_coverage_witness :
    OpenAIClient.infer_multiple_fields ⟨some "k"⟩ (fun _ _ => .ok [("a", .vStr "x")])
        ["Years of experience (P)", "a"] [] =
      [("a", .vStr "x"), ("Years of experience (P)", .vInt 5)] ∧
    assocFind?
        (OpenAIClient.infer_multiple_fields ⟨some "k"⟩ (fun _ _ => .ok [("a", .vStr "x")])
          ["Years of experience (P)", "a"] []) "Years of experience (P)" =
      some (.vInt 5) := by
  refine ⟨by decide, ?_⟩
  have h := (C7_fallback_coverage ⟨some "k"⟩ (fun _ _ => .ok [("a", .vStr "x")])
    ["Years of experience (P)", "a"] []).2.2.2.2.2.2
  have := h [("a", .vStr "x")] rfl (by decide) "Years of experience (P)" (by decide)
  simpa using this

/-! ## C9: fallback determinism -/

/-- **C9** (confirmed): with no credential stored, `infer_multiple_fields`
never consults the transport: its result is the same on any two
invocations over the same fields and record (whatever the would-be call
outcomes), namely the static fallback per field. -/
theorem C9_fallback_deterministic (c : OpenAIClient)
    (call call' : List String → List (String × Value) → Except String (List (String × Value)))
    (fields : List String) (td : List (String × Value))
    (h : strFalsy c.api_key = true) :
    c.infer_multiple_fields call fields td = c.infer_multiple_fields call' fields td ∧
    c.infer_multiple_fields call fields td =
      fields.map fun f => (f, OpenAIClient.getFallbackValue f) := by
  simp [OpenAIClient.infer_multiple_fields, h]

/-- Witness for C9: a no-credential client queried with two different
transport outcomes. -/
theorem C9_fallback_deterministic_witness :
    strFalsy (OpenAIClient.mk none).api_key = true ∧
    OpenAIClient.infer_multiple_fields ⟨none⟩ (fun _ _ => .error "boom")
        ["Nationality (Z)"] [] =
      OpenAIClient.infer_multiple_fields ⟨none⟩ (fun _ _ => .ok [("Nationality (Z)", .vStr "X")])
        ["Nationality (Z)"] [] := by
  exact ⟨by decide,
    (C9_fallback_deterministic ⟨none⟩ (fun _ _ => .error "boom")
      (fun _ _ => .ok [("Nationality (Z)", .vStr "X")]) ["Nationality (Z)"] [] (by decide)).1⟩

/-! ## C5: combination mappings -/

/-- **C5** (confirmed): for a combination entry the resolver splits the
source spec on `+`, strips each part, and joins the truthy parts' values
with single spaces: `"first + last"` over `first="Jane"`, `last="Doe"`
resolves to exactly `"Jane Doe"`; with `last` absent it resolves to
exactly `"Jane"`; and when no part yields a non-empty token the
destination is bound to a null (no string value — treated as absent by the
downstream defaulting pass), never to the empty string. -/
theorem filter_eq_nil_of_false {α : Type} (p : α → Bool) (l : List α)
    (h : ∀ x ∈ l, p x = false) : l.filter p = [] := by
  induction l with
  | nil => rfl
  | cons a rest ih =>
    rw [List.filter_cons, if_neg (by simp [h a (List.mem_cons_self a rest)])]
    exact ih fun x hx => h x (List.mem_cons_of_mem _ hx)

theorem C5_combination_mapping (row : List (String × Value))
    (t : List (String × Option Value)) (ai : List String) (d : String) :
    (assocFind? row "first + last" = none →
      assocFind? row "first" = some (.vStr "Jane") →
      assocFind? row "last" = some (.vStr "Doe") →
      resolveStep row (t, ai) ("first + last", d) = (dictSet t d (some (.vStr "Jane Doe")), ai)) ∧
    (assocFind? row "first + last" = none →
      assocFind? row "first" = some (.vStr "Jane") →
      assocFind? row "last" = none →
      resolveStep row (t, ai) ("first + last", d) = (dictSet t d (some (.vStr "Jane")), ai)) ∧
    (∀ spec, assocFind? row spec = none → spec.data.contains '+' = true →
      (∀ p ∈ (pySplitChar '+' spec).map pyStrip, rowTruthy row p = false) →
      resolveStep row (t, ai) (spec, d) = (dictSet t d none, ai)) := by
  have hsplit : (pySplitChar '+' "first + last").map pyStrip = ["first", "last"] := by decide
  refine ⟨?_, ?_, ?_⟩
  · intro h0 h1 h2
    simp only [resolveStep, h0]
    rw [if_pos (by decide)]
    have : combineParts row "first + last" = some (.vStr "Jane Doe") := by
      simp only [combineParts]
      rw [hsplit,
        show List.filter (rowTruthy row) ["first", "last"] = ["first", "last"] from by
          simp only [List.filter, rowTruthy, h1, h2]
          decide,
        show List.map (rowStr row) ["first", "last"] = ["Jane", "Doe"] from by
          simp [rowStr, h1, h2, Value.pyStr]]
      decide
    rw [this]
  · intro h0 h1 h2
    simp only [resolveStep, h0]
    rw [if_pos (by decide)]
    have : combineParts row "first + last" = some (.vStr "Jane") := by
      simp only [combineParts]
      rw [hsplit,
        show List.filter (rowTruthy row) ["first", "last"] = ["first"] from by
          simp only [List.filter, rowTruthy, h1, h2]
          decide,
        show List.map (rowStr row) ["first"] = ["Jane"] from by
          simp [rowStr, h1, Value.pyStr]]
      decide
    rw [this]
  · intro spec h0 hplus hfalse
    simp only [resolveStep, h0]
    rw [if_pos hplus]
    have : combineParts row spec = none := by
      simp only [combineParts]
      rw [filter_eq_nil_of_false _ _ hfalse, List.map_nil]
      decide
    rw [this]

/-! ## C6: the required-column defaulting pass -/

theorem needsDefault_dictSet_ne (t : List (String × Option Value)) (k col : String)
    (v : Option Value) (h : col ≠ k) :
    needsDefault (dictSet t k v) col = needsDefault t col := by
  simp only [needsDefault, assocFind_dictSet_ne t k col v h]

theorem requiredPass_other (L : List String) (fresh : String)
    (t : List (String × Option Value)) (c : String) (hc : c ∉ L) :
    assocFind?
      (L.foldl
        (fun t col =>
          if needsDefault t col then dictSet t col (getDefaultValue fresh col) else t) t) c
      = assocFind? t c := by
  induction L generalizing t with
  | nil => rfl
  | cons g rest ih =>
    have hcg : c ≠ g := fun h => hc (h ▸ List.mem_cons_self g rest)
    have hcr : c ∉ rest := fun h => hc (List.mem_cons_of_mem _ h)
    simp only [List.foldl_cons]
    rw [ih _ hcr]
    by_cases hg : needsDefault t g
    · rw [if_pos hg, assocFind_dictSet_ne _ _ _ _ hcg]
    · rw [if_neg hg]

theorem requiredPass_lookup (L : List String) (hL : L.Nodup) (fresh : String)
    (t : List (String × Option Value)) (col : String) (hcol : col ∈ L) :
    assocFind?
      (L.foldl
        (fun t col =>
          if needsDefault t col then dictSet t col (getDefaultValue fresh col) else t) t) col
      = if needsDefault t col then some (getDefaultValue fresh col) else assocFind? t col := by
  induction L generalizing t with
  | nil => cases hcol
  | cons g rest ih =>
    simp only [List.foldl_cons]
    rcases List.mem_cons.mp hcol with hc | hc
    · subst hc
      have hnr : col ∉ rest := (List.nodup_cons.mp hL).1
      rw [requiredPass_other rest fresh _ col hnr]
      by_cases hg : needsDefault t col
      · rw [if_pos hg, if_pos hg, assocFind_dictSet_self]
      · rw [if_neg hg, if_neg hg]
    · have hgcol : col ≠ g := by
        rintro rfl
        exact (List.nodup_cons.mp hL).1 hc
      have ihr := ih (List.nodup_cons.mp hL).2
      by_cases hg : needsDefault t g
      · rw [if_pos hg, ihr _ hc, needsDefault_dictSet_ne _ _ _ _ hgcol,
          assocFind_dictSet_ne _ _ _ _ hgcol]
      · rw [if_neg hg, ihr _ hc]

/-- **C6** (confirmed): the required-column defaulting pass substitutes the
fixed defaults (name→"Unknown Teacher", subject→"General Education",
country/city→"Unknown", a fresh identifier for teacher_id, …) exactly for
the required columns whose binding is missing, null (`NaN`/`None`) or the
empty string; any required column already carrying a non-null, non-empty
value, and any column outside the required set, is left untouched. -/
theorem C6_required_defaulting (fresh : String) (t : List (String × Option Value)) :
    (getDefaultValue fresh "teacher_id" = some (.vStr fresh) ∧
     getDefaultValue fresh "name" = some (.vStr "Unknown Teacher") ∧
     getDefaultValue fresh "subject" = some (.vStr "General Education") ∧
     getDefaultValue fresh "headline" = some (.vStr "Teacher") ∧
     getDefaultValue fresh "current_location_country" = some (.vStr "Unknown") ∧
     getDefaultValue fresh "current_location_city" = some (.vStr "Unknown") ∧
     getDefaultValue fresh "bio" = some (.vStr "No biography provided") ∧
     getDefaultValue fresh "preferred_curriculum_experience" = some (.vStr "Not specified") ∧
     getDefaultValue fresh "years_of_teaching_experience" = some (.vStr "0") ∧
     getDefaultValue fresh "linkedin_profile_url" = some (.vStr "Not provided")) ∧
    (∀ col ∈ REQUIRED_OUTPUT_COLUMNS,
      assocFind? (requiredDefaultsPass fresh t) col =
        if needsDefault t col then some (getDefaultValue fresh col) else assocFind? t col) ∧
    (∀ c, c ∉ REQUIRED_OUTPUT_COLUMNS →
      assocFind? (requiredDefaultsPass fresh t) c = assocFind? t c) := by
  refine ⟨⟨rfl, rfl, rfl, rfl, rfl, rfl, rfl, rfl, rfl, rfl⟩, ?_, ?_⟩
  · intro col hcol
    exact requiredPass_lookup REQUIRED_OUTPUT_COLUMNS (by decide) fresh t col hcol
  · intro c hc
    exact requiredPass_other REQUIRED_OUTPUT_COLUMNS fresh t c hc

/-- Witness for C6: a record carrying a non-empty `name` keeps it, while a
missing `subject` and an empty `headline` receive their defaults. -/
theorem C6_required_defaulting_witness :
    assocFind? (requiredDefaultsPass "u2" [("name", some (.vStr "Jane Doe")),
        ("headline", some (.vStr ""))]) "name" = some (some (.vStr "Jane Doe")) ∧
    assocFind? (requiredDefaultsPass "u2" [("name", some (.vStr "Jane Doe")),
        ("headline", some (.vStr ""))]) "subject" = some (some (.vStr "General Education")) ∧
    assocFind? (requiredDefaultsPass "u2" [("name", some (.vStr "Jane Doe")),
        ("headline", some (.vStr ""))]) "headline" = some (some (.vStr "Teacher")) := by
  have h := C6_required_defaulting "u2"
    [("name", some (.vStr "Jane Doe")), ("headline", some (.vStr ""))]
  refine ⟨?_, ?_, ?_⟩
  · have := h.2.1 "name" (by decide)
    rw [this, if_neg (by decide)]
    rfl
  · have := h.2.1 "subject" (by decide)
    rw [this, if_pos (by decide)]
    rfl
  · have := h.2.1 "headline" (by decide)
    rw [this, if_pos (by decide)]
    rfl

/-- Witness for C5 at a concrete row. -/
theorem C5_combination_mapping_witness :
    resolveStep [("first", .vStr "Jane"), ("last", .vStr "Doe")] ([], []) ("first + last", "name")
      = ([("name", some (.vStr "Jane Doe"))], []) ∧
    resolveStep [("first", .vStr "Jane")] ([], []) ("first + last", "name")
      = ([("name", some (.vStr "Jane"))], []) ∧
    resolveStep [("first", .vStr "")] ([], []) ("first + last", "name")
      = ([("name", none)], []) := by
  refine ⟨?_, ?_, ?_⟩
  · exact ((C5_combination_mapping [("first", .vStr "Jane"), ("last", .vStr "Doe")]
      [] [] "name").1 (by decide) (by decide) (by decide)).trans (by decide)
  · exact ((C5_combination_mapping [("first", .vStr "Jane")] [] [] "name").2.1
      (by decide) (by decide) (by decide)).trans (by decide)
  · exact ((C5_combination_mapping [("first", .vStr "")] [] [] "name").2.2
      "first + last" (by decide) (by decide) (by decide)).trans (by decide)

/-! ## C10: input validation of `transform` -/

theorem assocFind_map_isSome {α : Type} (g : String → α) (l : List String) (k : String) :
    (assocFind? (l.map fun c => (c, g c)) k).isSome = true ↔ k ∈ l := by
  induction l with
  | nil => simp [assocFind?]
  | cons a rest ih =>
    by_cases h : a = k
    · subst h
      simp [assocFind?]
    · simp [assocFind?, h, ih, Ne.symm h]

theorem mem_concat_allCols (rows : List (List (String × Option Value)))
    (cols : List String) (c : String) (hc : c ∈ cols) :
    c ∈ rows.foldl
      (fun acc row => acc ++ (row.map Prod.fst).filter (fun k => !acc.contains k)) cols := by
  induction rows generalizing cols with
  | nil => exact hc
  | cons row rest ih => exact ih _ (List.mem_append_left _ hc)

theorem mem_dedupFirst_of_mem (l : List String) (c : String) (h : c ∈ l) :
    c ∈ dedupFirst l := by
  suffices H : ∀ acc : List String, c ∈ acc ∨ c ∈ l →
      c ∈ l.foldl (fun acc s => if s ∈ acc then acc else acc ++ [s]) acc from
    H [] (Or.inr h)
  clear h
  induction l with
  | nil => intro acc hacc; simpa using hacc.resolve_right (by simp)
  | cons s rest ih =>
    intro acc hacc
    simp only [List.foldl_cons]
    apply ih
    by_cases hs : s ∈ acc
    · rw [if_pos hs]
      rcases hacc with h | h
      · exact Or.inl h
      · rcases List.mem_cons.mp h with rfl | h
        · exact Or.inl hs
        · exact Or.inr h
    · rw [if_neg hs]
      rcases hacc with h | h
      · exact Or.inl (List.mem_append_left _ h)
      · rcases List.mem_cons.mp h with rfl | h
        · exact Or.inl (List.mem_append_right _ (List.mem_singleton_self c))
        · exact Or.inr h

/-- **C10** (confirmed): `transform` rejects degenerate input at its public
interface — a non-dataframe argument or a dataframe with zero rows raises
`"Invalid input data"` — while every non-empty dataframe is processed to a
successful output batch (one output row per input row), so that error is
never raised for it. -/
theorem C10_transform_input_validation (mapping : List (String × String))
    (inferFn : List String → List (String × Value) → List (String × Value))
    (ids : Nat → String × String) (now : String) :
    (∀ f : Frame, f.n = 0 →
      transform mapping inferFn ids now (.df f) = .error "Invalid input data") ∧
    (transform mapping inferFn ids now .nonDf = .error "Invalid input data") ∧
    (∀ f : Frame, f.n ≠ 0 →
      ∃ out, transform mapping inferFn ids now (.df f) = .ok out ∧ out.n = f.n) := by
  refine ⟨?_, rfl, ?_⟩
  · intro f hf
    simp [transform, validate_input, hf]
  · intro f hf
    have hvo : validate_output
        (concatRows (get_output_columns mapping)
          ((List.range f.n).map fun i =>
            transformRow mapping inferFn (ids i).1 (ids i).2 now (f.row i))) = true := by
      simp only [validate_output, Bool.and_eq_true, bne_iff_ne]
      constructor
      · simpa [concatRows] using hf
      · rw [List.all_eq_true]
        intro c hc
        simp only [concatRows, Frame.hasCol, findCol]
        rw [assocFind_map_isSome]
        exact mem_concat_allCols _ _ _
          (mem_dedupFirst_of_mem _ _
            (List.mem_append_left _ (List.mem_append_right _ hc)))
    refine ⟨concatRows (get_output_columns mapping)
      ((List.range f.n).map fun i =>
        transformRow mapping inferFn (ids i).1 (ids i).2 now (f.row i)), ?_, ?_⟩
    · simp [transform, validate_input, hf, hvo]
    · simp [concatRows]

/-- Witness for C10: a concrete one-row dataframe is transformed
successfully; the empty dataframe and a non-dataframe are rejected. -/
theorem C10_transform_input_validation_witness :
    transform [] (fun _ _ => []) (fun _ => ("u1", "u2")) "NOW"
        (.df ⟨0, []⟩) = .error "Invalid input data" ∧
    ∃ out, transform [] (fun _ _ => []) (fun _ => ("u1", "u2")) "NOW"
        (.df ⟨1, [("a", [some (.vStr "x")])]⟩) = .ok out ∧ out.n = 1 := by
  have h := C10_transform_input_validation [] (fun _ _ => []) (fun _ => ("u1", "u2")) "NOW"
  exact ⟨h.1 ⟨0, []⟩ rfl, h.2.2 ⟨1, [("a", [some (.vStr "x")])]⟩ (by decide)⟩

/-! ## C4: always-empty columns -/

theorem col_setSeries_ne_of_len (r : Frame) (c c' : String) (v : Col) (h : v.length = 0)
    (hne : c' ≠ c) : (r.setSeries c v).col c' = r.col c' := by
  unfold Frame.setSeries
  rw [if_neg (by simp [h])]
  simp [Frame.col, findCol, updateOrAppend, assocFind_dictSet_ne _ _ _ _ hne]

theorem PFrame_setSeries (r : Frame) (d : String) (v : Col)
    (hd : d ∈ DESIRED_OUTPUT_HEADERS) (hdAE : d ∉ ALWAYS_EMPTY_COLUMNS)
    (h : PFrame r) : PFrame (r.setSeries d v) := by
  obtain ⟨hk, hae⟩ := h
  refine ⟨?_, ?_⟩
  · rw [keys_setSeries _ _ _ (hk.symm ▸ hd)]
    exact hk
  · intro c hc cell hcell
    have hne : c ≠ d := fun hcd => hdAE (hcd ▸ hc)
    by_cases hn : r.n = 0
    · by_cases hv : v.length = 0
      · rw [col_setSeries_ne_of_len r d c v hv hne] at hcell
        exact hae c hc cell hcell
      · rw [col_setSeries_expand r d c v hn hv hne] at hcell
        by_cases hck : c ∈ keysOf r
        · rw [if_pos hck] at hcell
          exact List.eq_of_mem_replicate hcell
        · rw [if_neg hck] at hcell
          cases hcell
    · rw [col_setSeries_ne_of_n r d c v hn hne] at hcell
      exact hae c hc cell hcell

theorem PFrame_setScalar (r : Frame) (d : String) (x : Cell)
    (hd : d ∈ DESIRED_OUTPUT_HEADERS) (hx : d ∈ ALWAYS_EMPTY_COLUMNS → x = none)
    (h : PFrame r) : PFrame (r.setScalar d x) := by
  obtain ⟨hk, hae⟩ := h
  refine ⟨?_, ?_⟩
  · rw [keys_setScalar _ _ _ (hk.symm ▸ hd)]
    exact hk
  · intro c hc cell hcell
    by_cases hcd : c = d
    · subst hcd
      rw [col_setScalar_self] at hcell
      rw [List.eq_of_mem_replicate hcell, hx hc]
    · rw [col_setScalar_ne r d c x hcd] at hcell
      exact hae c hc cell hcell

theorem col_map_nil (l : List String) (n : Nat) (c : String) :
    (Frame.mk n (l.map fun h => (h, ([] : Col)))).col c = [] := by
  simp only [Frame.col, findCol]
  induction l with
  | nil => rfl
  | cons a rest ih =>
    by_cases h : a = c
    · simp [assocFind?, h]
    · simpa [assocFind?, h] using ih

theorem PFrame_initResult : PFrame initResult := by
  constructor
  · decide
  · intro c hc cell hcell
    rw [show initResult.col c = [] from col_map_nil DESIRED_OUTPUT_HEADERS 0 c] at hcell
    cases hcell

theorem PFrame_mappingPass (df r : Frame) (h : PFrame r) : PFrame (mappingPass df r) := by
  refine foldl_invariant PFrame (mappingStep df) FIELD_MAPPING ?_ r h
  intro sd hsd a ha
  have hfact : ∀ sd ∈ FIELD_MAPPING,
      sd.2 ∈ DESIRED_OUTPUT_HEADERS ∧ sd.2 ∉ ALWAYS_EMPTY_COLUMNS := by decide
  have hdest := hfact sd hsd
  unfold mappingStep
  split
  · exact PFrame_setSeries a sd.2 _ hdest.1 hdest.2 ha
  · exact ha

theorem PFrame_defaultsPass (r r' : Frame) (h : PFrame r)
    (hfold : defaultsPass r = .ok r') : PFrame r' := by
  refine foldlM_invariant PFrame defaultStep DEFAULT_VALUES ?_ r r' h hfold
  intro fd hfd s s' hs hstep
  have hfact : ∀ fd ∈ DEFAULT_VALUES, fd.1 ∈ DESIRED_OUTPUT_HEADERS ∧
      (fd.1 ∈ ALWAYS_EMPTY_COLUMNS → fd.2 = (none : Cell)) := by decide
  have hfield := hfact fd hfd
  unfold defaultStep at hstep
  split at hstep
  · cases hstep
    exact PFrame_setScalar s fd.1 fd.2 hfield.1 hfield.2 hs
  · split at hstep
    · cases hfd2 : fd.2 with
      | none => rw [hfd2] at hstep; cases hstep
      | some v =>
        rw [hfd2] at hstep
        cases hstep
        refine PFrame_setSeries s fd.1 _ hfield.1 (fun hAE => ?_) hs
        rw [hfield.2 hAE] at hfd2
        cases hfd2
    · cases hstep
      exact hs

theorem calcPass_eq (r : Frame) (h : keysOf r = DESIRED_OUTPUT_HEADERS) :
    calcPass r = r := by
  refine foldl_noop calcStep CALCULATED_FIELDS r ?_
  intro f hf
  have hfact : ∀ f ∈ CALCULATED_FIELDS, f ∈ DESIRED_OUTPUT_HEADERS := by decide
  have hmem := hfact f hf
  unfold calcStep
  rw [if_neg (by simp [(hasCol_iff_mem_keys r f).mpr (h.symm ▸ hmem)])]

theorem typeDefaultsPass_eq (r : Frame) (h : keysOf r = DESIRED_OUTPUT_HEADERS) :
    typeDefaultsPass r = r := by
  refine foldl_noop typeDefaultStep DESIRED_OUTPUT_HEADERS r ?_
  intro f hf
  unfold typeDefaultStep
  rw [if_neg (by simp [(hasCol_iff_mem_keys r f).mpr (h.symm ▸ hf)])]

theorem PFrame_teacherIdPass (df r r' : Frame) (h : PFrame r)
    (hstep : teacherIdPass df r = .ok r') : PFrame r' := by
  unfold teacherIdPass at hstep
  split at hstep
  · split at hstep
    · cases hstep
      exact PFrame_setSeries r "teacher_id" _ (by decide) (by decide) h
    · cases hstep
  · cases hstep
    exact h

theorem PFrame_createdAtPass (now : String) (df r : Frame) (h : PFrame r) :
    PFrame (createdAtPass now df r) := by
  unfold createdAtPass
  split
  · split
    · exact PFrame_setSeries r "created_at" _ (by decide) (by decide) h
    · exact PFrame_setScalar r "created_at" _ (by decide)
        (fun hmem => absurd hmem (by decide)) h
  · exact h

theorem PFrame_namePass (df r : Frame) (h : PFrame r) : PFrame (namePass df r) := by
  unfold namePass
  split
  · split
    · exact PFrame_setSeries r "name" _ (by decide) (by decide) h
    · exact PFrame_setSeries r "name" _ (by decide) (by decide) h
  · exact h

theorem reorderPass_ok (r out : Frame) (h : reorderPass r = .ok out) :
    out = ⟨r.n, DESIRED_OUTPUT_HEADERS.map fun c => (c, r.col c)⟩ := by
  unfold reorderPass at h
  cases hsel : selectCols r DESIRED_OUTPUT_HEADERS with
  | error e => rw [hsel] at h; cases h
  | ok cols =>
    rw [hsel] at h
    cases h
    rw [selectCols_ok r DESIRED_OUTPUT_HEADERS cols hsel]

/-- The result of a successful standardization, as the reorder of the
frame accumulated by the earlier passes. -/
theorem standardize_ok_shape (now : String) (df out : Frame)
    (h : standardize_output now df = .ok out) :
    ∃ r7, PFrame r7 ∧
      out = ⟨r7.n, DESIRED_OUTPUT_HEADERS.map fun c => (c, r7.col c)⟩ := by
  obtain ⟨r2, r4, h2, h4, hout⟩ := (standardize_decompose now df out).mp h
  have p1 := PFrame_mappingPass df initResult PFrame_initResult
  have p2 := PFrame_defaultsPass _ r2 p1 h2
  rw [calcPass_eq r2 p2.1] at h4
  have p4 := PFrame_teacherIdPass df r2 r4 p2 h4
  have p5 := PFrame_createdAtPass now df r4 p4
  rw [typeDefaultsPass_eq _ p5.1] at hout
  have p7 := PFrame_namePass df _ p5
  exact ⟨_, p7, reorderPass_ok _ out hout⟩

/-- **C4** (confirmed): in every successful standardization, each
designated always-empty column holds only its declared default (the null
that `DEFAULT_VALUES` assigns to it) in every record. -/
theorem C4_always_empty_columns (now : String) (df out : Frame)
    (h : standardize_output now df = .ok out) :
    ∀ c ∈ ALWAYS_EMPTY_COLUMNS, ∀ cell ∈ out.col c, cell = (none : Cell) := by
  obtain ⟨r7, hP, hshape⟩ := standardize_ok_shape now df out h
  intro c hc cell hcell
  have hfact : ∀ c ∈ ALWAYS_EMPTY_COLUMNS, c ∈ DESIRED_OUTPUT_HEADERS := by decide
  have hmem := hfact c hc
  rw [hshape] at hcell
  rw [show Frame.col ⟨r7.n, DESIRED_OUTPUT_HEADERS.map fun c => (c, r7.col c)⟩ c
      = r7.col c from by
    simp only [Frame.col, findCol]
    rw [assocFind_map_self _ _ _ hmem]
    rfl] at hcell
  exact hP.2 c hc cell hcell

set_option maxRecDepth 8000 in
/-- Witness for C4: the always-empty columns of a concrete standardized
batch contain only nulls. -/
theorem C4_always_empty_columns_witness :
    standardize_output "T" dfSourceId = .ok outSourceId ∧
    outSourceId.col "hourly_rate" =
      List.replicate (outSourceId.col "hourly_rate").length none := by
  have hstd : standardize_output "T" dfSourceId = .ok outSourceId := by decide
  exact ⟨hstd, List.eq_replicate_of_mem
    (C4_always_empty_columns "T" dfSourceId outSourceId hstd "hourly_rate" (by decide))⟩

/-! ## C8: the canonical column set -/

set_option maxRecDepth 8000 in
/-- Counterexample for **C8**: the standardized output of a concrete batch
has 30 columns, not the claimed 29 (the claim's own column list names 30
headers). -/
theorem C8_counterexample :
    standardize_output "T" dfSourceId = .ok outSourceId ∧
    outSourceId.cols.length = 30 ∧ (outSourceId.cols.length = 29 → False) := by
  refine ⟨by decide, by decide, ?_⟩
  intro h
  rw [show outSourceId.cols.length = 30 from by decide] at h
  cases h

/-- **C8** (corrected): every successful standardization yields exactly the
30 canonical columns, in the fixed declared order of
`DESIRED_OUTPUT_HEADERS` — no more, no fewer. -/
theorem C8_canonical_columns (now : String) (df out : Frame)
    (h : standardize_output now df = .ok out) :
    keysOf out = DESIRED_OUTPUT_HEADERS ∧ out.cols.length = 30 := by
  obtain ⟨r7, _, hshape⟩ := standardize_ok_shape now df out h
  subst hshape
  constructor
  · show (DESIRED_OUTPUT_HEADERS.map fun c => (c, r7.col c)).map Prod.fst
      = DESIRED_OUTPUT_HEADERS
    rw [List.map_map, show (Prod.fst ∘ fun c : String => (c, r7.col c)) = id from rfl,
      List.map_id]
  · simp only [List.length_map]
    decide

set_option maxRecDepth 8000 in
/-- Witness for C8 at a concrete batch. -/
theorem C8_canonical_columns_witness :
    keysOf outSourceId = DESIRED_OUTPUT_HEADERS ∧ outSourceId.cols.length = 30 :=
  C8_canonical_columns "T" dfSourceId outSourceId (by decide)

/-! ## Column/row tracking lemmas for the remaining standardizer claims -/

theorem assocFind_dictSet_isSome {α : Type} (l : List (String × α)) (k c : String) (v : α)
    (h : (assocFind? l c).isSome = true) :
    (assocFind? (dictSet l k v) c).isSome = true := by
  by_cases hk : c = k
  · subst hk
    rw [assocFind_dictSet_self]
    rfl
  · rwa [assocFind_dictSet_ne _ _ _ _ hk]

theorem hasCol_setScalar (r : Frame) (k c : String) (x : Cell)
    (h : r.hasCol c = true) : (r.setScalar k x).hasCol c = true :=
  assocFind_dictSet_isSome _ _ _ _ h

theorem hasCol_setSeries (r : Frame) (k c : String) (v : Col)
    (h : r.hasCol c = true) : (r.setSeries k v).hasCol c = true := by
  unfold Frame.setSeries
  split
  · refine assocFind_dictSet_isSome _ _ _ _ ?_
    show (assocFind? (r.cols.map fun p => (p.1, List.replicate v.length (none : Cell))) c).isSome
      = true
    rw [assocFind_map_const]
    simpa [Option.isSome_map] using h
  · exact assocFind_dictSet_isSome _ _ _ _ h

theorem n_setSeries_expand (r : Frame) (c : String) (v : Col) (h : r.n = 0)
    (hv : v.length ≠ 0) : (r.setSeries c v).n = v.length := by
  unfold Frame.setSeries
  rw [if_pos ⟨h, hv⟩]

theorem notnaAny_of_all (l : Col) (hne : l ≠ []) (h : l.all Cell.notna = true) :
    notnaAny l = true := by
  cases l with
  | nil => exact absurd rfl hne
  | cons a rest =>
    rw [List.all_cons, Bool.and_eq_true] at h
    simp [notnaAny, h.1]

theorem isnaAny_false_of_all (l : Col) (h : l.all Cell.notna = true) :
    isnaAny l = false := by
  rw [List.all_eq_true] at h
  simp only [isnaAny, List.any_eq_false]
  intro x hx
  simp [h x hx]

theorem isnaAll_false_of_all (l : Col) (hne : l ≠ []) (h : l.all Cell.notna = true) :
    isnaAll l = false := by
  cases l with
  | nil => exact absurd rfl hne
  | cons a rest =>
    rw [List.all_cons, Bool.and_eq_true] at h
    simp [isnaAll, h.1]

/-- A mapping-loop suffix in which every entry targeting `c` fails its copy
condition leaves column `c` and the row count unchanged (no expansion can
occur once the frame has rows). -/
theorem mappingFold_preserve (df : Frame) (l : List (String × String)) (c : String) :
    ∀ r : Frame, r.n ≠ 0 → r.hasCol c = true →
    (∀ sd ∈ l, sd.2 = c →
      ¬(df.hasCol sd.1 = true ∧ notnaAny (df.col sd.1) = true)) →
    (l.foldl (mappingStep df) r).col c = r.col c ∧
      (l.foldl (mappingStep df) r).n = r.n ∧
      (l.foldl (mappingStep df) r).hasCol c = true := by
  induction l with
  | nil => exact fun r _ hc _ => ⟨rfl, rfl, hc⟩
  | cons sd rest ih =>
    intro r hn hc hcond
    simp only [List.foldl_cons]
    by_cases hfire : df.hasCol sd.1 = true ∧ notnaAny (df.col sd.1) = true
    · have hstep : mappingStep df r sd = r.setSeries sd.2 (df.col sd.1) := by
        unfold mappingStep
        rw [if_pos hfire]
      rw [hstep]
      have hne : c ≠ sd.2 := by
        intro hcd
        exact hcond sd (List.mem_cons_self sd rest) hcd.symm hfire
      obtain ⟨h1, h2, h3⟩ := ih (r.setSeries sd.2 (df.col sd.1))
        (by rw [n_setSeries_of_ne r sd.2 _ hn]; exact hn)
        (hasCol_setSeries r sd.2 c _ hc)
        (fun x hx => hcond x (List.mem_cons_of_mem _ hx))
      refine ⟨?_, ?_, h3⟩
      · rw [h1, col_setSeries_ne_of_n r sd.2 c _ hn hne]
      · rw [h2, n_setSeries_of_ne r sd.2 _ hn]
    · have hstep : mappingStep df r sd = r := by
        unfold mappingStep
        rw [if_neg hfire]
      rw [hstep]
      exact ih r hn hc fun x hx => hcond x (List.mem_cons_of_mem _ hx)

theorem foldlM_total {σ : Type} (P : Frame → Prop)
    (step : Frame → σ → Except String Frame) (l : List σ)
    (hstep : ∀ x ∈ l, ∀ r, P r → ∃ r', step r x = .ok r' ∧ P r') :
    ∀ r, P r → ∃ r', l.foldlM step r = .ok r' ∧ P r' := by
  induction l with
  | nil => exact fun r hr => ⟨r, rfl, hr⟩
  | cons x rest ih =>
    intro r hr
    obtain ⟨r1, h1, hP1⟩ := hstep x (List.mem_cons_self x rest) r hr
    obtain ⟨r', h', hP'⟩ := ih (fun y hy => hstep y (List.mem_cons_of_mem _ hy)) r1 hP1
    exact ⟨r', by rw [List.foldlM_cons, h1]; exact h', hP'⟩

/-- Under the always-empty invariant the defaults loop cannot reach the
raising `fillna(None)` branch: it always succeeds, preserving the
invariant. -/
theorem defaultsPass_ok_of_PFrame (r : Frame) (h : PFrame r) :
    ∃ r', defaultsPass r = .ok r' ∧ PFrame r' := by
  refine foldlM_total PFrame defaultStep DEFAULT_VALUES ?_ r h
  intro fd hfd s hs
  have hfact : ∀ fd ∈ DEFAULT_VALUES, fd.1 ∈ DESIRED_OUTPUT_HEADERS ∧
      (fd.1 ∈ ALWAYS_EMPTY_COLUMNS → fd.2 = (none : Cell)) ∧
      (fd.2 = (none : Cell) → fd.1 ∈ ALWAYS_EMPTY_COLUMNS) := by decide
  obtain ⟨hhead, hae, hnone⟩ := hfact fd hfd
  unfold defaultStep
  by_cases h1 : ¬ s.hasCol fd.1 = true ∨ isnaAll (s.col fd.1) = true
  · rw [if_pos h1]
    exact ⟨_, rfl, PFrame_setScalar s fd.1 fd.2 hhead hae hs⟩
  · rw [if_neg h1]
    by_cases h2 : isnaAny (s.col fd.1) = true
    · rw [if_pos h2]
      cases hfd2 : fd.2 with
      | none =>
        exfalso
        have hmem := hnone hfd2
        push_neg at h1
        have hallnone : isnaAll (s.col fd.1) = true := by
          rw [isnaAll, List.all_eq_true]
          intro x hx
          simp [hs.2 fd.1 hmem x hx, Cell.notna]
        exact absurd hallnone (by simpa using h1.2)
      | some v =>
        refine ⟨_, rfl, PFrame_setSeries s fd.1 _ hhead (fun hmem => ?_) hs⟩
        rw [hae hmem] at hfd2
        cases hfd2
    · rw [if_neg h2]
      exact ⟨s, rfl, hs⟩

/-- A successful defaults loop leaves a fully non-null, non-empty column
(and the row count) unchanged. -/
theorem defaultsFold_track (l : List (String × Cell)) (c : String) :
    ∀ r r' : Frame, r.n ≠ 0 → r.hasCol c = true → r.col c ≠ [] →
    isnaAny (r.col c) = false →
    l.foldlM defaultStep r = .ok r' →
    r'.col c = r.col c ∧ r'.n = r.n ∧ r'.hasCol c = true := by
  induction l with
  | nil =>
    intro r r' hn hc hne hna hfold
    cases hfold
    exact ⟨rfl, rfl, hc⟩
  | cons fd rest ih =>
    intro r r' hn hc hne hna hfold
    rw [List.foldlM_cons] at hfold
    by_cases heq : fd.1 = c
    · subst heq
      have hstep : defaultStep r fd = .ok r := by
        unfold defaultStep
        have hall : isnaAll (r.col fd.1) = false := by
          cases hcol : r.col fd.1 with
          | nil => exact absurd hcol hne
          | cons a rest2 =>
            rw [hcol] at hna
            simp only [isnaAny, List.any_cons, Bool.or_eq_false_iff] at hna
            simp [isnaAll, hna.1]
        rw [if_neg (by simp [hc, hall]), if_neg (by simp [hna])]
      rw [hstep] at hfold
      exact ih r r' hn hc hne hna hfold
    · cases hstep : defaultStep r fd with
      | error e => rw [hstep] at hfold; cases hfold
      | ok r1 =>
        rw [hstep] at hfold
        have hcne : c ≠ fd.1 := fun hcc => heq hcc.symm
        have hr1 : r1.col c = r.col c ∧ r1.n = r.n ∧ r1.hasCol c = true := by
          unfold defaultStep at hstep
          split at hstep
          · cases hstep
            exact ⟨col_setScalar_ne r fd.1 c fd.2 hcne, rfl, hasCol_setScalar r fd.1 c fd.2 hc⟩
          · split at hstep
            · cases hfd2 : fd.2 with
              | none => rw [hfd2] at hstep; cases hstep
              | some v =>
                rw [hfd2] at hstep
                cases hstep
                exact ⟨col_setSeries_ne_of_n r fd.1 c _ hn hcne,
                  n_setSeries_of_ne r fd.1 _ hn, hasCol_setSeries r fd.1 c _ hc⟩
            · cases hstep
              exact ⟨rfl, rfl, hc⟩
        obtain ⟨k1, k2, k3⟩ := ih r1 r' (by rw [hr1.2.1]; exact hn) hr1.2.2
          (by rw [hr1.1]; exact hne) (by rw [hr1.1]; exact hna) hfold
        exact ⟨by rw [k1, hr1.1], by rw [k2, hr1.2.1], k3⟩

/-! ## C3: teacher_id handling in the standardizer -/

theorem createdAtPass_track (now : String) (df r : Frame) (c : String) (hn : r.n ≠ 0)
    (hc : c ≠ "created_at") :
    (createdAtPass now df r).col c = r.col c ∧ (createdAtPass now df r).n = r.n := by
  unfold createdAtPass
  split
  · split
    · exact ⟨col_setSeries_ne_of_n r _ c _ hn hc, n_setSeries_of_ne r _ _ hn⟩
    · exact ⟨col_setScalar_ne r _ c _ hc, rfl⟩
  · exact ⟨rfl, rfl⟩

theorem namePass_track (df r : Frame) (c : String) (hn : r.n ≠ 0) (hc : c ≠ "name") :
    (namePass df r).col c = r.col c ∧ (namePass df r).n = r.n := by
  unfold namePass
  split
  · split
    · exact ⟨col_setSeries_ne_of_n r _ c _ hn hc, n_setSeries_of_ne r _ _ hn⟩
    · exact ⟨col_setSeries_ne_of_n r _ c _ hn hc, n_setSeries_of_ne r _ _ hn⟩
  · exact ⟨rfl, rfl⟩

set_option maxRecDepth 8000 in
/-- Counterexample for **C3**: a batch whose `teacher_id` column is
entirely null — and likewise one lacking the column — standardizes
*successfully*, with the identifier silently defaulted to the empty
string: no hard error is raised, because the global-defaults pass fills
`teacher_id` with `''` before the would-be hard-failure check runs. -/
theorem C3_counterexample :
    (standardize_output "T" dfNullTid).map (fun f => f.col "teacher_id")
      = .ok [some (.vStr "")] ∧
    (standardize_output "T" dfNoTid).map (fun f => f.col "teacher_id")
      = .ok [some (.vStr "")] := by
  constructor <;> decide

/-- **C3** (corrected): (a) a batch carrying non-null `teacher_id` values
(and no legacy `ID (a)` column, which would overwrite them) standardizes
successfully with those values preserved verbatim; (b) the hard error is
raised only when the batch has no `teacher_id` column *and* no mapped
source column contributes any value; an absent or all-null `teacher_id`
column in any batch with other populated mapped columns is silently
defaulted, not rejected. -/
theorem C3_teacher_id (now : String) (df : Frame) :
    (df.hasCol "teacher_id" = true →
      (df.col "teacher_id").all Cell.notna = true →
      df.col "teacher_id" ≠ [] →
      df.hasCol "ID (a)" = false →
      ∃ out, standardize_output now df = .ok out ∧
        out.col "teacher_id" = df.col "teacher_id") ∧
    (df.hasCol "teacher_id" = false →
      (∀ sd ∈ FIELD_MAPPING,
        ¬(df.hasCol sd.1 = true ∧ notnaAny (df.col sd.1) = true)) →
      standardize_output now df =
        .error "teacher_id field is missing from the input DataFrame") := by
  constructor
  · intro htid hall hne hIDa
    have hlen : (df.col "teacher_id").length ≠ 0 :=
      fun h => hne (List.length_eq_zero.mp h)
    have hnotna : notnaAny (df.col "teacher_id") = true := notnaAny_of_all _ hne hall
    have hmap : mappingPass df initResult =
        List.foldl (mappingStep df)
          (initResult.setSeries "teacher_id" (df.col "teacher_id")) FIELD_MAPPING.tail := by
      unfold mappingPass
      rw [show FIELD_MAPPING = ("teacher_id", "teacher_id") :: FIELD_MAPPING.tail from rfl,
        List.foldl_cons]
      congr 1
      unfold mappingStep
      rw [if_pos ⟨htid, hnotna⟩]
    have hr1n : (initResult.setSeries "teacher_id" (df.col "teacher_id")).n ≠ 0 := by
      rw [n_setSeries_expand initResult _ _ rfl hlen]
      exact hlen
    have hr1col : (initResult.setSeries "teacher_id" (df.col "teacher_id")).col "teacher_id"
        = df.col "teacher_id" := col_setSeries_self initResult _ _
    have hr1has : (initResult.setSeries "teacher_id" (df.col "teacher_id")).hasCol "teacher_id"
        = true := hasCol_setSeries initResult _ _ _ (by decide)
    have htailcond : ∀ sd ∈ FIELD_MAPPING.tail, sd.2 = "teacher_id" →
        ¬(df.hasCol sd.1 = true ∧ notnaAny (df.col sd.1) = true) := by
      have hfact : ∀ sd ∈ FIELD_MAPPING.tail, sd.2 = "teacher_id" → sd.1 = "ID (a)" := by
        decide
      intro sd hsd hsd2 hcontra
      rw [hfact sd hsd hsd2, hIDa] at hcontra
      exact absurd hcontra.1 (by simp)
    obtain ⟨hm1, hm2, hm3⟩ := mappingFold_preserve df FIELD_MAPPING.tail "teacher_id"
      (initResult.setSeries "teacher_id" (df.col "teacher_id")) hr1n hr1has htailcond
    have hPm : PFrame (mappingPass df initResult) :=
      PFrame_mappingPass df initResult PFrame_initResult
    obtain ⟨r2, hdef, hP2⟩ := defaultsPass_ok_of_PFrame _ hPm
    have hmn : (mappingPass df initResult).n ≠ 0 := by
      rw [hmap, hm2]
      exact hr1n
    have hmcol : (mappingPass df initResult).col "teacher_id" = df.col "teacher_id" := by
      rw [hmap, hm1, hr1col]
    have hmhas : (mappingPass df initResult).hasCol "teacher_id" = true := by
      rw [hmap]
      exact hm3
    have hdef' : DEFAULT_VALUES.foldlM defaultStep (mappingPass df initResult) = .ok r2 := by
      rw [show DEFAULT_VALUES.foldlM defaultStep (mappingPass df initResult)
          = defaultsPass (mappingPass df initResult) from rfl]
      exact hdef
    obtain ⟨hd1, hd2, hd3⟩ := defaultsFold_track DEFAULT_VALUES "teacher_id"
      (mappingPass df initResult) r2 hmn hmhas
      (by rw [hmcol]; exact hne) (by rw [hmcol]; exact isnaAny_false_of_all _ hall) hdef'
    have hr2col : r2.col "teacher_id" = df.col "teacher_id" := by rw [hd1, hmcol]
    have hr2n : r2.n ≠ 0 := by
      rw [hd2]
      exact hmn
    have hcalc : calcPass r2 = r2 := calcPass_eq r2 hP2.1
    have htp : teacherIdPass df (calcPass r2) = .ok r2 := by
      rw [hcalc]
      unfold teacherIdPass
      rw [if_neg]
      rintro (h | h)
      · exact h hd3
      · rw [hr2col] at h
        exact absurd h (by rw [isnaAll_false_of_all _ hne hall]; simp)
    have hP5 : PFrame (createdAtPass now df r2) := PFrame_createdAtPass now df r2 hP2
    obtain ⟨hc1, hc2⟩ := createdAtPass_track now df r2 "teacher_id" hr2n (by decide)
    have htdp : typeDefaultsPass (createdAtPass now df r2) = createdAtPass now df r2 :=
      typeDefaultsPass_eq _ hP5.1
    have hP7 : PFrame (namePass df (createdAtPass now df r2)) :=
      PFrame_namePass df _ hP5
    obtain ⟨hn1, hn2⟩ := namePass_track df (createdAtPass now df r2) "teacher_id"
      (by rw [hc2]; exact hr2n) (by decide)
    have hsel : reorderPass (namePass df (createdAtPass now df r2)) =
        .ok ⟨(namePass df (createdAtPass now df r2)).n,
          DESIRED_OUTPUT_HEADERS.map fun c =>
            (c, (namePass df (createdAtPass now df r2)).col c)⟩ := by
      unfold reorderPass
      rw [selectCols_isOk _ _ fun c hc =>
        (hasCol_iff_mem_keys _ c).mpr (hP7.1.symm ▸ hc)]
      rfl
    refine ⟨⟨(namePass df (createdAtPass now df r2)).n,
        DESIRED_OUTPUT_HEADERS.map fun c =>
          (c, (namePass df (createdAtPass now df r2)).col c)⟩,
      (standardize_decompose now df _).mpr ⟨r2, r2, hdef, htp, ?_⟩, ?_⟩
    · rw [htdp]
      exact hsel
    · show Frame.col ⟨(namePass df (createdAtPass now df r2)).n,
        DESIRED_OUTPUT_HEADERS.map fun c =>
          (c, (namePass df (createdAtPass now df r2)).col c)⟩ "teacher_id"
        = df.col "teacher_id"
      simp only [Frame.col, findCol]
      rw [assocFind_map_self _ _ _ (by decide)]
      show (namePass df (createdAtPass now df r2)).col "teacher_id" = df.col "teacher_id"
      rw [hn1, hc1, hr2col]
  · intro hntid hnofire
    have hmap : mappingPass df initResult = initResult := by
      refine foldl_noop (mappingStep df) FIELD_MAPPING initResult ?_
      intro sd hsd
      unfold mappingStep
      rw [if_neg (hnofire sd hsd)]
    have hdef : defaultsPass initResult = .ok initResult := by decide
    have hcalc : calcPass initResult = initResult := by decide
    have htp : teacherIdPass df (calcPass initResult) = .error
        "teacher_id field is missing from the input DataFrame" := by
      rw [hcalc]
      unfold teacherIdPass
      rw [if_pos (by decide), if_neg (by simp [hntid])]
    unfold standardize_output
    rw [hmap, hdef, exbind_ok, htp, exbind_error]

set_option maxRecDepth 8000 in
/-- Witness for C3: a batch carrying the identifier `"id-1"` standardizes
successfully and keeps it; a batch with nothing mapped and no identifier
column raises the hard error. -/
theorem C3_teacher_id_witness :
    (∃ out, standardize_output "T" dfTid = .ok out ∧
      out.col "teacher_id" = dfTid.col "teacher_id") ∧
    standardize_output "T" (⟨1, [("zzz", [some (.vStr "A")])]⟩ : Frame) =
      .error "teacher_id field is missing from the input DataFrame" := by
  constructor
  · exact (C3_teacher_id "T" dfTid).1 (by decide) (by decide) (by decide) (by decide)
  · exact (C3_teacher_id "T" ⟨1, [("zzz", [some (.vStr "A")])]⟩).2 (by decide) (by decide)

/-! ## C2: idempotence of the standardizer -/

theorem mappingStep_n (df r : Frame) (sd : String × String) (hn : r.n ≠ 0) :
    (mappingStep df r sd).n = r.n := by
  unfold mappingStep
  split
  · exact n_setSeries_of_ne r _ _ hn
  · rfl

theorem mappingFold_n (df : Frame) (l : List (String × String)) :
    ∀ r : Frame, r.n ≠ 0 → (l.foldl (mappingStep df) r).n = r.n := by
  induction l with
  | nil => exact fun _ _ => rfl
  | cons sd rest ih =>
    intro r hn
    rw [List.foldl_cons, ih _ (by rw [mappingStep_n df r sd hn]; exact hn),
      mappingStep_n df r sd hn]

theorem mappingFold_col (df : Frame) (l : List (String × String)) (c : String) :
    ∀ r : Frame, r.n ≠ 0 →
    (l.foldl (mappingStep df) r).col c =
      match lastFire df c l with
      | some s => df.col s
      | none => r.col c := by
  induction l with
  | nil => exact fun r _ => rfl
  | cons sd rest ih =>
    intro r hn
    rw [List.foldl_cons, ih _ (by rw [mappingStep_n df r sd hn]; exact hn)]
    have hcons : lastFire df c (sd :: rest) =
        match lastFire df c rest with
        | some s => some s
        | none =>
          if sd.2 = c ∧ df.hasCol sd.1 = true ∧ notnaAny (df.col sd.1) = true then some sd.1
          else none := rfl
    rw [hcons]
    cases hlf : lastFire df c rest with
    | some s => rfl
    | none =>
      by_cases hcase : sd.2 = c ∧ df.hasCol sd.1 = true ∧ notnaAny (df.col sd.1) = true
      · rw [if_pos hcase]
        show (mappingStep df r sd).col c = df.col sd.1
        have hstep : mappingStep df r sd = r.setSeries sd.2 (df.col sd.1) := by
          unfold mappingStep
          rw [if_pos ⟨hcase.2.1, hcase.2.2⟩]
        rw [hstep, ← hcase.1, col_setSeries_self]
      · rw [if_neg hcase]
        show (mappingStep df r sd).col c = r.col c
        by_cases hfire : df.hasCol sd.1 = true ∧ notnaAny (df.col sd.1) = true
        · have hne : c ≠ sd.2 := fun he => hcase ⟨he.symm, hfire.1, hfire.2⟩
          have hstep : mappingStep df r sd = r.setSeries sd.2 (df.col sd.1) := by
            unfold mappingStep
            rw [if_pos hfire]
          rw [hstep, col_setSeries_ne_of_n r _ _ _ hn hne]
        · have hstep : mappingStep df r sd = r := by
            unfold mappingStep
            rw [if_neg hfire]
          rw [hstep]

theorem hasCol_setScalar_ne (r : Frame) (k c : String) (x : Cell) (hne : c ≠ k) :
    (r.setScalar k x).hasCol c = r.hasCol c := by
  simp [Frame.setScalar, Frame.hasCol, findCol, updateOrAppend,
    assocFind_dictSet_ne _ _ _ _ hne]

theorem hasCol_setSeries_ne_of_n (r : Frame) (k c : String) (v : Col) (hn : r.n ≠ 0)
    (hne : c ≠ k) : (r.setSeries k v).hasCol c = r.hasCol c := by
  unfold Frame.setSeries
  rw [if_neg (by simp [hn])]
  simp [Frame.hasCol, findCol, updateOrAppend, assocFind_dictSet_ne _ _ _ _ hne]

theorem isnaAll_replicate_none (n : Nat) :
    isnaAll (List.replicate n (none : Cell)) = true := by
  rw [isnaAll, List.all_eq_true]
  intro x hx
  rw [List.eq_of_mem_replicate hx]
  rfl

/-- Full characterization of one successful defaults loop over a
duplicate-free table: each listed column receives exactly the branch the
code prescribes, evaluated against the incoming frame, and everything else
is untouched. -/
theorem defaultsFold_spec (l : List (String × Cell)) :
    ∀ r r' : Frame, r.n ≠ 0 → (l.map Prod.fst).Nodup →
    l.foldlM defaultStep r = .ok r' →
    (∀ fd ∈ l, r'.col fd.1 =
      if ¬ r.hasCol fd.1 = true ∨ isnaAll (r.col fd.1) = true then List.replicate r.n fd.2
      else if isnaAny (r.col fd.1) = true then fillnaScalar (r.col fd.1) fd.2
      else r.col fd.1) ∧
    (∀ c, c ∉ l.map Prod.fst → r'.col c = r.col c) ∧ r'.n = r.n := by
  induction l with
  | nil =>
    intro r r' _ _ h
    cases h
    exact ⟨fun fd hfd => absurd hfd (List.not_mem_nil fd), fun _ _ => rfl, rfl⟩
  | cons fd rest ih =>
    intro r r' hn hnodup hfold
    rw [List.foldlM_cons] at hfold
    cases hstep : defaultStep r fd with
    | error e => rw [hstep] at hfold; cases hfold
    | ok r1 =>
      rw [hstep] at hfold
      have hr1 : (r1.col fd.1 =
            if ¬ r.hasCol fd.1 = true ∨ isnaAll (r.col fd.1) = true then
              List.replicate r.n fd.2
            else if isnaAny (r.col fd.1) = true then fillnaScalar (r.col fd.1) fd.2
            else r.col fd.1) ∧
          (∀ c, c ≠ fd.1 → r1.col c = r.col c ∧ r1.hasCol c = r.hasCol c) ∧
          r1.n = r.n := by
        unfold defaultStep at hstep
        split at hstep
        · cases hstep
          refine ⟨?_, ?_, rfl⟩
          · rw [if_pos ‹_›, col_setScalar_self]
          · exact fun c hc =>
              ⟨col_setScalar_ne r fd.1 c fd.2 hc, hasCol_setScalar_ne r fd.1 c fd.2 hc⟩
        · split at hstep
          · cases hfd2 : fd.2 with
            | none => rw [hfd2] at hstep; cases hstep
            | some v =>
              rw [hfd2] at hstep
              cases hstep
              refine ⟨?_, ?_, n_setSeries_of_ne r fd.1 _ hn⟩
              · rw [if_neg ‹_›, if_pos ‹_›, col_setSeries_self]
              · exact fun c hc => ⟨col_setSeries_ne_of_n r fd.1 c _ hn hc,
                  hasCol_setSeries_ne_of_n r fd.1 c _ hn hc⟩
          · cases hstep
            refine ⟨?_, fun _ _ => ⟨rfl, rfl⟩, rfl⟩
            rw [if_neg ‹_›, if_neg ‹_›]
      obtain ⟨ha, hb, hcn⟩ := hr1
      have hkey : fd.1 ∉ rest.map Prod.fst := (List.nodup_cons.mp hnodup).1
      obtain ⟨ih1, ih2, ih3⟩ := ih r1 r' (by rw [hcn]; exact hn)
        (List.nodup_cons.mp hnodup).2 hfold
      refine ⟨?_, ?_, by rw [ih3, hcn]⟩
      · intro fd' hfd'
        rcases List.mem_cons.mp hfd' with rfl | hfd'
        · rw [ih2 fd'.1 hkey, ha]
        · have hne : fd'.1 ≠ fd.1 := by
            intro he
            exact hkey (he ▸ List.mem_map_of_mem Prod.fst hfd')
          obtain ⟨hcol, hhas⟩ := hb fd'.1 hne
          rw [ih1 fd' hfd', hcol, hhas, hcn]
      · intro c hc
        have hc1 : c ∉ rest.map Prod.fst := fun h => hc (List.mem_cons_of_mem _ h)
        have hcfd : c ≠ fd.1 := fun he => hc (he ▸ List.mem_cons_self _ _)
        rw [ih2 c hc1, (hb c hcfd).1]

/-- A duplicate-free association list is reconstructible from its keys and
lookups. -/
theorem assocList_eq_map (l : List (String × Col))
    (h : (l.map Prod.fst).Nodup) :
    l = (l.map Prod.fst).map fun k => (k, (assocFind? l k).getD []) := by
  induction l with
  | nil => rfl
  | cons p rest ih =>
    obtain ⟨k, v⟩ := p
    simp only [List.map_cons]
    rw [show assocFind? ((k, v) :: rest) k = some v from by simp [assocFind?]]
    have hrest : ∀ k' ∈ rest.map Prod.fst,
        assocFind? ((k, v) :: rest) k' = assocFind? rest k' := by
      intro k' hk'
      have : k ≠ k' := fun he => (List.nodup_cons.mp h).1 (he ▸ hk')
      simp [assocFind?, this]
    have hmapeq : (rest.map Prod.fst).map (fun k' => (k', (assocFind? ((k, v) :: rest) k').getD []))
        = (rest.map Prod.fst).map fun k' => (k', (assocFind? rest k').getD []) := by
      apply List.map_congr_left
      intro k' hk'
      rw [hrest k' hk']
    rw [hmapeq]
    exact congrArg _ (ih (List.nodup_cons.mp h).2)

set_option maxRecDepth 8000 in
set_option maxHeartbeats 1000000 in
/-- Counterexample for **C2**: standardization is *not* idempotent.  On a
batch with a legacy `ID` column, the first pass copies it into
`Source ID`; the second pass finds no `ID` column (only `Source ID`,
which is not a mapping source) and resets `Source ID` to its `""`
default, so the rerun differs from the first result. -/
theorem C2_counterexample :
    restandardize "T" (standardize_output "T" dfSourceId) ≠ standardize_output "T" dfSourceId ∧
    (standardize_output "T" dfSourceId).map (fun f => f.col "Source ID")
      = .ok [some (.vStr "x")] ∧
    (restandardize "T" (standardize_output "T" dfSourceId)).map (fun f => f.col "Source ID")
      = .ok [some (.vStr "")] := by
  have h2 : (standardize_output "T" dfSourceId).map (fun f => f.col "Source ID")
      = .ok [some (.vStr "x")] := by decide
  have h3 : (restandardize "T" (standardize_output "T" dfSourceId)).map
      (fun f => f.col "Source ID") = .ok [some (.vStr "")] := by decide
  refine ⟨?_, h2, h3⟩
  intro he
  rw [he, h2] at h3
  exact absurd h3 (by decide)

/-- **C2** (corrected): idempotence holds exactly on standardized batches
whose non-self-sourced columns carry only their declared defaults: if the
batch has the canonical columns in canonical order, at least one row,
fully non-null self-mapped columns, null always-empty columns,
`subjects_count` all `0`, and `""` throughout `Embeddings`,
`Current school`, `School website`, `Email` and `Source ID`, then a second
standardization returns it unchanged.  (By `C2_counterexample`, a batch
carrying values in those last columns is *not* a fixed point: they are
reset to defaults.) -/
theorem C2_idempotent_on_standard_shape (now : String) (out : Frame)
    (hkeys : keysOf out = DESIRED_OUTPUT_HEADERS)
    (hn : out.n ≠ 0)
    (hlen : ∀ c ∈ SELF_MAPPED_COLUMNS, (out.col c).length = out.n)
    (hsm : ∀ c ∈ SELF_MAPPED_COLUMNS, (out.col c).all Cell.notna = true)
    (hae : ∀ c ∈ ALWAYS_EMPTY_COLUMNS, out.col c = List.replicate out.n (none : Cell))
    (hsc : out.col "subjects_count" = List.replicate out.n (some (.vInt 0)))
    (hrs : ∀ c ∈ RESET_COLUMNS, out.col c = List.replicate out.n (some (.vStr ""))) :
    standardize_output now out = .ok out := by
  have hhc : ∀ s, out.hasCol s = decide (s ∈ DESIRED_OUTPUT_HEADERS) := by
    intro s
    by_cases h : s ∈ DESIRED_OUTPUT_HEADERS
    · rw [(hasCol_iff_mem_keys out s).mpr (by rw [hkeys]; exact h)]
      simp [h]
    · rw [decide_eq_false h]
      rw [Bool.eq_false_iff]
      intro hh
      exact h (hkeys ▸ (hasCol_iff_mem_keys out s).mp hh)
  have hnonempty : ∀ c ∈ SELF_MAPPED_COLUMNS, out.col c ≠ [] := by
    intro c hc he
    exact hn (by rw [← hlen c hc, he]; rfl)
  have hna : ∀ c ∈ SELF_MAPPED_COLUMNS, notnaAny (out.col c) = true :=
    fun c hc => notnaAny_of_all _ (hnonempty c hc) (hsm c hc)
  have hian : ∀ c ∈ SELF_MAPPED_COLUMNS, isnaAny (out.col c) = false :=
    fun c hc => isnaAny_false_of_all _ (hsm c hc)
  have hiall : ∀ c ∈ SELF_MAPPED_COLUMNS, isnaAll (out.col c) = false :=
    fun c hc => isnaAll_false_of_all _ (hnonempty c hc) (hsm c hc)
  have hna01 := hna "teacher_id" (by decide)
  have hna02 := hna "created_at" (by decide)
  have hna03 := hna "current_location_country" (by decide)
  have hna04 := hna "current_location_city" (by decide)
  have hna05 := hna "subject" (by decide)
  have hna06 := hna "bio" (by decide)
  have hna07 := hna "preferred_curriculum_experience" (by decide)
  have hna08 := hna "years_of_teaching_experience" (by decide)
  have hna09 := hna "linkedin_profile_url" (by decide)
  have hna10 := hna "preferred_grade_level" (by decide)
  have hna11 := hna "Nationality" (by decide)
  have hna12 := hna "name" (by decide)
  have hna13 := hna "headline" (by decide)
  have hlentid := hlen "teacher_id" (by decide)
  have hcT01 : out.hasCol "teacher_id" = true := by rw [hhc]; decide
  have hcT02 : out.hasCol "created_at" = true := by rw [hhc]; decide
  have hcT03 : out.hasCol "current_location_country" = true := by rw [hhc]; decide
  have hcT04 : out.hasCol "current_location_city" = true := by rw [hhc]; decide
  have hcT05 : out.hasCol "subject" = true := by rw [hhc]; decide
  have hcT06 : out.hasCol "bio" = true := by rw [hhc]; decide
  have hcT07 : out.hasCol "preferred_curriculum_experience" = true := by rw [hhc]; decide
  have hcT08 : out.hasCol "years_of_teaching_experience" = true := by rw [hhc]; decide
  have hcT09 : out.hasCol "linkedin_profile_url" = true := by rw [hhc]; decide
  have hcT10 : out.hasCol "preferred_grade_level" = true := by rw [hhc]; decide
  have hcT11 : out.hasCol "Nationality" = true := by rw [hhc]; decide
  have hcT12 : out.hasCol "name" = true := by rw [hhc]; decide
  have hcT13 : out.hasCol "headline" = true := by rw [hhc]; decide
  have hcF01 : out.hasCol "ID" = false := by rw [hhc]; decide
  have hcF02 : out.hasCol "Name (b)" = false := by rw [hhc]; decide
  have hcF03 : out.hasCol "Headline (d)" = false := by rw [hhc]; decide
  have hcF04 : out.hasCol "Linkedin URL (u)" = false := by rw [hhc]; decide
  have hcF05 : out.hasCol "Preferred age range (V)" = false := by rw [hhc]; decide
  have hcF06 : out.hasCol "Email (AC)" = false := by rw [hhc]; decide
  have hcF07 : out.hasCol "Source ID (AD)" = false := by rw [hhc]; decide
  have hcF08 : out.hasCol "School (AA)" = false := by rw [hhc]; decide
  have hcF09 : out.hasCol "school website (AB)" = false := by rw [hhc]; decide
  have hcF10 : out.hasCol "country (R)" = false := by rw [hhc]; decide
  have hcF11 : out.hasCol "city (s)" = false := by rw [hhc]; decide
  have hcF12 : out.hasCol "ID (a)" = false := by rw [hhc]; decide
  have hmap1 : mappingPass out initResult =
      List.foldl (mappingStep out)
        (initResult.setSeries "teacher_id" (out.col "teacher_id")) FIELD_MAPPING.tail := by
    unfold mappingPass
    rw [show FIELD_MAPPING = ("teacher_id", "teacher_id") :: FIELD_MAPPING.tail from rfl,
      List.foldl_cons]
    congr 1
    unfold mappingStep
    rw [if_pos ⟨hcT01, hna01⟩]
  have hr1n : (initResult.setSeries "teacher_id" (out.col "teacher_id")).n = out.n := by
    rw [n_setSeries_expand initResult _ _ rfl (by rw [hlentid]; exact hn)]
    exact hlentid
  have hr1nne : (initResult.setSeries "teacher_id" (out.col "teacher_id")).n ≠ 0 := by
    rw [hr1n]
    exact hn
  have hr1tid : (initResult.setSeries "teacher_id" (out.col "teacher_id")).col "teacher_id"
      = out.col "teacher_id" := col_setSeries_self initResult _ _
  have hr1other : ∀ c ∈ DESIRED_OUTPUT_HEADERS, c ≠ "teacher_id" →
      (initResult.setSeries "teacher_id" (out.col "teacher_id")).col c
        = List.replicate out.n (none : Cell) := by
    intro c hc hne
    rw [col_setSeries_expand initResult _ _ _ rfl (by rw [hlentid]; exact hn) hne,
      if_pos (show c ∈ keysOf initResult from by
        rw [show keysOf initResult = DESIRED_OUTPUT_HEADERS from by decide]
        exact hc), hlentid]
  have hlfA : ∀ c ∈ SELF_MAPPED_COLUMNS.tail, lastFire out c FIELD_MAPPING.tail = some c := by
    intro c hc
    fin_cases hc <;>
      simp [lastFire, hcT02, hcT03, hcT04, hcT05, hcT06, hcT07, hcT08, hcT09, hcT10,
        hcT11, hcT12, hcT13, hcF01, hcF02, hcF03, hcF04, hcF05, hcF06, hcF07, hcF08,
        hcF09, hcF10, hcF11, hcF12, hna02, hna03, hna04, hna05, hna06, hna07, hna08,
        hna09, hna10, hna11, hna12, hna13]
  have hlfT : lastFire out "teacher_id" FIELD_MAPPING.tail = none := by
    simp [lastFire, hcF01, hcF02, hcF03, hcF04, hcF05, hcF06, hcF07, hcF08, hcF09,
      hcF10, hcF11, hcF12]
  have hlfB : ∀ c ∈ DESIRED_OUTPUT_HEADERS, c ∉ SELF_MAPPED_COLUMNS →
      lastFire out c FIELD_MAPPING.tail = none := by
    intro c hc hnc
    fin_cases hc <;>
      first
        | (exact absurd (by decide) hnc)
        | simp [lastFire, hcF01, hcF02, hcF03, hcF04, hcF05, hcF06, hcF07, hcF08,
            hcF09, hcF10, hcF11, hcF12]
  have hrmn : (mappingPass out initResult).n = out.n := by
    rw [hmap1, mappingFold_n out _ _ hr1nne, hr1n]
  have hrmsm : ∀ c ∈ SELF_MAPPED_COLUMNS, (mappingPass out initResult).col c = out.col c := by
    intro c hc
    by_cases hteq : c = "teacher_id"
    · subst hteq
      rw [hmap1, mappingFold_col out _ _ _ hr1nne, hlfT]
      exact hr1tid
    · have hc' : c ∈ SELF_MAPPED_COLUMNS.tail := by
        rcases List.mem_cons.mp hc with h | h
        · exact absurd h hteq
        · exact h
      rw [hmap1, mappingFold_col out _ _ _ hr1nne, hlfA c hc']
  have hrmother : ∀ c ∈ DESIRED_OUTPUT_HEADERS, c ∉ SELF_MAPPED_COLUMNS →
      (mappingPass out initResult).col c = List.replicate out.n (none : Cell) := by
    intro c hc hnc
    rw [hmap1, mappingFold_col out _ _ _ hr1nne, hlfB c hc hnc]
    exact hr1other c hc fun he => hnc (he ▸ (by decide : "teacher_id" ∈ SELF_MAPPED_COLUMNS))
  have hPm : PFrame (mappingPass out initResult) :=
    PFrame_mappingPass out initResult PFrame_initResult
  obtain ⟨r2, hdef, hP2⟩ := defaultsPass_ok_of_PFrame _ hPm
  have hdef' : DEFAULT_VALUES.foldlM defaultStep (mappingPass out initResult) = .ok r2 := by
    rw [show DEFAULT_VALUES.foldlM defaultStep (mappingPass out initResult)
        = defaultsPass (mappingPass out initResult) from rfl]
    exact hdef
  have hrmhas : ∀ c ∈ DESIRED_OUTPUT_HEADERS, (mappingPass out initResult).hasCol c = true :=
    fun c hc => (hasCol_iff_mem_keys _ c).mpr (by rw [hPm.1]; exact hc)
  obtain ⟨hs1, hs2, hs3⟩ := defaultsFold_spec DEFAULT_VALUES (mappingPass out initResult) r2
    (by rw [hrmn]; exact hn) (by decide) hdef'
  have hSMh : ∀ c ∈ SELF_MAPPED_COLUMNS, c ∈ DESIRED_OUTPUT_HEADERS := by decide
  have hgA : ∀ c ∈ SELF_MAPPED_COLUMNS, ∀ dv : Cell, (c, dv) ∈ DEFAULT_VALUES →
      r2.col c = out.col c := by
    intro c hc dv hmem
    have := hs1 (c, dv) hmem
    rw [this,
      if_neg (by rw [hrmhas c (hSMh c hc), hrmsm c hc, hiall c hc]; simp),
      if_neg (by rw [hrmsm c hc, hian c hc]; simp)]
    exact hrmsm c hc
  have hgB : ∀ c ∈ DESIRED_OUTPUT_HEADERS, c ∉ SELF_MAPPED_COLUMNS →
      ∀ dv : Cell, (c, dv) ∈ DEFAULT_VALUES →
      r2.col c = List.replicate out.n dv := by
    intro c hc hnc dv hmem
    have := hs1 (c, dv) hmem
    rw [this, if_pos (Or.inr (by rw [hrmother c hc hnc]; exact isnaAll_replicate_none _)),
      hrmn]
  have hr2 : ∀ c ∈ DESIRED_OUTPUT_HEADERS, r2.col c = out.col c := by
    intro c hc
    fin_cases hc <;>
      first
        | exact hgA _ (by decide) (some (.vStr "")) (by decide)
        | exact hgA _ (by decide) (some (.vStr "0")) (by decide)
        | exact (hgB _ (by decide) (by decide) none (by decide)).trans
            (hae _ (by decide)).symm
        | exact (hgB _ (by decide) (by decide) (some (.vInt 0)) (by decide)).trans hsc.symm
        | exact (hgB _ (by decide) (by decide) (some (.vStr "")) (by decide)).trans
            (hrs _ (by decide)).symm
  have hr2n : r2.n = out.n := by rw [hs3, hrmn]
  have hr2has : ∀ c ∈ DESIRED_OUTPUT_HEADERS, r2.hasCol c = true :=
    fun c hc => (hasCol_iff_mem_keys _ c).mpr (by rw [hP2.1]; exact hc)
  have hcalc : calcPass r2 = r2 := calcPass_eq r2 hP2.1
  have htid : teacherIdPass out (calcPass r2) = .ok r2 := by
    rw [hcalc]
    unfold teacherIdPass
    rw [if_neg]
    rintro (h | h)
    · exact h (hr2has "teacher_id" (by decide))
    · rw [hr2 "teacher_id" (by decide), hiall "teacher_id" (by decide)] at h
      cases h
  have hcre : createdAtPass now out r2 = r2 := by
    unfold createdAtPass
    rw [if_neg]
    rintro (h | h)
    · exact h (hr2has "created_at" (by decide))
    · rw [hr2 "created_at" (by decide), hiall "created_at" (by decide)] at h
      cases h
  have htdp : typeDefaultsPass r2 = r2 := typeDefaultsPass_eq r2 hP2.1
  have hnp : namePass out r2 = r2 := by
    unfold namePass
    rw [if_neg]
    rintro ⟨_, h⟩
    rw [hr2 "name" (by decide), hian "name" (by decide)] at h
    cases h
  have hsel : reorderPass r2 =
      .ok ⟨r2.n, DESIRED_OUTPUT_HEADERS.map fun c => (c, r2.col c)⟩ := by
    unfold reorderPass
    rw [selectCols_isOk _ _ fun c hc => hr2has c hc]
    rfl
  have hfinal : (⟨r2.n, DESIRED_OUTPUT_HEADERS.map fun c => (c, r2.col c)⟩ : Frame) = out := by
    have h2 : DESIRED_OUTPUT_HEADERS.map (fun c => (c, r2.col c))
        = DESIRED_OUTPUT_HEADERS.map fun c => (c, out.col c) :=
      List.map_congr_left fun c hc => by rw [hr2 c hc]
    have h3 : out.cols = DESIRED_OUTPUT_HEADERS.map fun c => (c, out.col c) := by
      have hnodup : (out.cols.map Prod.fst).Nodup := by
        rw [show out.cols.map Prod.fst = keysOf out from rfl, hkeys]
        decide
      have := assocList_eq_map out.cols hnodup
      rw [show out.cols.map Prod.fst = keysOf out from rfl, hkeys] at this
      exact this
    cases out with
    | mk n cols =>
      simp only [Frame.mk.injEq]
      exact ⟨hr2n, by rw [h2, ← h3]⟩
  refine (standardize_decompose now out out).mpr ⟨r2, r2, hdef, htid, ?_⟩
  rw [hcre, htdp, hnp, hsel, hfinal]

set_option maxRecDepth 8000 in
set_option maxHeartbeats 1000000 in
/-- Witness for C2: the standardization of `dfNoTid` satisfies every
shape hypothesis (its `Source ID` and peers hold only defaults), and a
second standardization returns it unchanged. -/
theorem C2_idempotent_witness :
    standardize_output "T" dfNoTid = .ok outNoTid ∧
    standardize_output "NOW2" outNoTid = .ok outNoTid :=
  ⟨by decide,
    C2_idempotent_on_standard_shape "NOW2" outNoTid (by decide) (by decide) (by decide)
      (by decide) (by decide) (by decide) (by decide)⟩

end TeachReach
